import Mathlib

/-!
# tinymidi firmware: main loop, ADC interrupt, USB descriptors and callbacks

A shallow embedding of `firmware/main.c`.

* `int` is 16 bits on the AVR target; `int` variables are modelled as `Int`
  and the arithmetic done on them (`recovering--`, `recovering_adc--`) wraps
  explicitly through `wrapInt16`.
* `unsigned char` values (the bytes of `midiMsg`, the `PORTB` register) are
  `Nat`s reduced modulo 256 where the source converts into them.
* One iteration of `while(1)` in `main` is the function `mainStep`.  Its
  inputs are the value of the global `pressure` seen by that iteration (one
  value per iteration: the interrupt is taken not to fire between the reads
  of `pressure` inside one iteration) and the value returned by
  `usbInterruptIsReady()`.  The calls `wdt_reset()` and `usbPoll()` belong to
  the watchdog and the USB driver and are not modelled; neither the emitted
  packets nor `recovering` and `keydown` depend on `PORTB`.
* Every call `usbSetInterrupt(midiMsg, sizeof(midiMsg))` is recorded as one
  emitted packet: the 8 bytes of `midiMsg` at the time of the call.
* The constants and macros of `usbdrv.h` and `usbconfig.h` are not part of the
  sources; they are the fields of `UsbHeader`, and a statement that needs a
  value for one of them says so in a hypothesis.
* The start of `main` up to `usbInit()` is the action trace `mainBoot`.
-/

namespace TinyMidi

/-! ## Constants -/

/-- The `R_LED_PIN` constant (`#define R_LED_PIN 0`). -/
def R_LED_PIN : Nat := 0

/-- The `G_LED_PIN` constant (`#define G_LED_PIN 3`). -/
def G_LED_PIN : Nat := 3

/-- The `DEBOUNCE` constant (`#define DEBOUNCE  10000`). -/
def DEBOUNCE : Int := 10000

/-- Reduction of an integer to the range of a 16-bit signed `int`. -/
def wrapInt16 (x : Int) : Int := (x + 32768) % 65536 - 32768

/-- Conversion of an `int` to `unsigned char` (assignment into `midiMsg[k]`). -/
def toUchar (x : Int) : Nat := (x % 256).toNat

/-- The 8-bit complement `~m` as it acts on an 8-bit register. -/
def not8 (m : Nat) : Nat := 255 - m % 256

/-! ## Main loop -/

/-- A packet handed to `usbSetInterrupt`: the bytes of `midiMsg`. -/
abbrev Packet := List Nat

/-- The variables of `main` that live across loop iterations, and `PORTB`.
The local `press` is assigned at the top of every iteration before it is
read, so it is a per-iteration value and not part of the state. The buffer
`midiMsg` has all 8 bytes assigned before every `usbSetInterrupt`, so its
earlier contents are never transmitted. -/
structure MainState where
  recovering : Int
  keydown : Int
  PORTB : Nat
  deriving DecidableEq, Repr

/-- The result of one loop iteration: the new state and the emitted packets. -/
structure StepResult where
  state : MainState
  out : List Packet
  deriving DecidableEq, Repr

/-- The values of the locals at the start of `while(1)`:
`int recovering = 0; int keydown = 0;` with a given `PORTB`. -/
def mainInit (portb : Nat) : MainState :=
  { recovering := 0, keydown := 0, PORTB := portb }

/-- One iteration of the `while(1)` loop of `main` (lines 303-372).
`pressure` is the global read by the iteration, `ready` is the value of
`usbInterruptIsReady()`. -/
def mainStep (s : MainState) (pressure : Int) (ready : Bool) : StepResult :=
  -- press = (pressure > 10);
  let press : Bool := decide (pressure > 10)
  if ready then
    -- if (recovering) recovering--;
    if s.recovering ≠ 0 then
      { state := { s with recovering := wrapInt16 (s.recovering - 1) }, out := [] }
    -- else if (!press && keydown)
    else if !press && decide (s.keydown ≠ 0) then
      { state := { s with
          PORTB := s.PORTB &&& not8 ((1 <<< R_LED_PIN) ||| (1 <<< G_LED_PIN)),
          keydown := 0 },
        out := [[0x08, 0x80, 60, 0x00, 0x00, 0x00, 0x00, 0x00]] }
    -- else if (press && !keydown)
    else if press && decide (s.keydown = 0) then
      { state := { s with
          PORTB := s.PORTB ||| (1 <<< R_LED_PIN),
          keydown := 1,
          recovering := DEBOUNCE },
        out := [[0x09, 0x90, 60, toUchar (if pressure > 127 then 127 else pressure),
                 0x00, 0x00, 0x00, 0x00]] }
    -- else if (press)
    else if press then
      { state := { s with
          PORTB := s.PORTB ||| (1 <<< G_LED_PIN),
          recovering := DEBOUNCE },
        out := [[0x0b, 0xb0, 16, toUchar (if pressure > 127 then 127 else pressure),
                 0x00, 0x00, 0x00, 0x00]] }
    else
      { state := s, out := [] }
  else
    { state := s, out := [] }

/-- Accumulation of one more iteration onto a run: the state advances by
`mainStep` and the packets of the iteration are appended to the output. -/
def runStep (acc : StepResult) (inp : Int × Bool) : StepResult :=
  let r := mainStep acc.state inp.1 inp.2
  { state := r.state, out := acc.out ++ r.out }

/-- The main loop run over a finite sequence of per-iteration inputs
`(pressure, ready)`: the final state and all packets emitted, in order. -/
def mainRun (s : MainState) (inputs : List (Int × Bool)) : StepResult :=
  inputs.foldl runStep { state := s, out := [] }

/-! ## ADC interrupt -/

/-- The globals touched by `ISR(ADC_vect)`. -/
structure AdcState where
  recovering_adc : Int
  pressure : Int
  deriving DecidableEq, Repr

/-- The globals at reset: `int pressure = 0; int recovering_adc = -1;`. -/
def adcInit : AdcState := { recovering_adc := -1, pressure := 0 }

/-- One firing of `ISR(ADC_vect)` (lines 379-386); `adcw` is the value of the
16-bit conversion register `ADCW`. -/
def ADC_vect (a : AdcState) (adcw : Nat) : AdcState :=
  if a.recovering_adc = -1 then { a with recovering_adc := 300 }
  else if a.recovering_adc ≠ 0 then
    { a with recovering_adc := wrapInt16 (a.recovering_adc - 1) }
  else
    { pressure := Int.ofNat ((adcw % 65536) / 4), recovering_adc := -1 }

/-- The interrupt fired once for each raw conversion value of a sequence. -/
def adcRun (a : AdcState) (raws : List Nat) : AdcState :=
  raws.foldl ADC_vect a

/-! ## USB descriptors and control callbacks -/

/-- The constants and macros of `usbdrv.h` and `usbconfig.h` that `main.c`
uses. Those headers are not part of the sources, so their values are
parameters. The three ID macros expand to a comma-separated list of bytes. -/
structure UsbHeader where
  USB_CFG_VENDOR_ID : List Nat
  USB_CFG_DEVICE_ID : List Nat
  USB_CFG_DEVICE_VERSION : List Nat
  USBDESCR_DEVICE : Nat
  USBDESCR_CONFIG : Nat
  USBDESCR_INTERFACE : Nat
  USBDESCR_ENDPOINT : Nat
  USBATTR_BUSPOWER : Nat
  USB_CFG_MAX_BUS_POWER : Nat
  USBRQ_TYPE_MASK : Nat
  USBRQ_TYPE_CLASS : Nat
  USBRQ_DIR_MASK : Nat
  USBRQ_DIR_HOST_TO_DEVICE : Nat
  deriving DecidableEq, Repr

/-- Conversion of a constant expression to one byte of a `char` table. -/
def toByte (x : Nat) : Nat := x % 256

/-- The table `deviceDescrMIDI` (lines 18-33), byte for byte. -/
def deviceDescrMIDI (h : UsbHeader) : List Nat :=
  [ 18,                     -- length of descriptor in bytes
    1,                      -- descriptor type
    0x10, 0x01,             -- USB version supported
    0,                      -- device class
    0,                      -- subclass
    0,                      -- protocol
    8 ]                     -- max packet size
  ++ h.USB_CFG_VENDOR_ID.map toByte
  ++ h.USB_CFG_DEVICE_ID.map toByte
  ++ h.USB_CFG_DEVICE_VERSION.map toByte
  ++ [ 1,                   -- manufacturer string index
       2,                   -- product string index
       0,                   -- serial number string index
       1 ]                  -- number of configurations

/-- The table `configDescrMIDI` (lines 36-153), byte for byte. -/
def configDescrMIDI (h : UsbHeader) : List Nat :=
  [ -- configuration descriptor
    9, toByte h.USBDESCR_CONFIG, 101, 0, 2, 1, 0,
    toByte h.USBATTR_BUSPOWER, toByte (h.USB_CFG_MAX_BUS_POWER / 2),
    -- standard AC interface descriptor
    9, toByte h.USBDESCR_INTERFACE, 0, 0, 0, 1, 1, 0, 0,
    -- class-specific AC interface descriptor
    9, 36, 1, 0x0, 0x01, 9, 0, 1, 1,
    -- standard MIDIStreaming interface descriptor
    9, toByte h.USBDESCR_INTERFACE, 1, 0, 2, 1, 3, 0, 0,
    -- class-specific MIDIStreaming interface descriptor
    7, 36, 1, 0x0, 0x01, 65, 0,
    -- MIDI IN jack descriptors
    6, 36, 2, 1, 1, 0,
    6, 36, 2, 2, 2, 0,
    -- MIDI OUT jack descriptors
    9, 36, 3, 1, 3, 1, 2, 1, 0,
    9, 36, 3, 2, 4, 1, 1, 1, 0,
    -- standard bulk OUT endpoint descriptor
    9, toByte h.USBDESCR_ENDPOINT, 0x1, 3, 8, 0, 10, 0, 0,
    -- class-specific MS bulk OUT endpoint descriptor
    5, 37, 1, 1, 1,
    -- standard bulk IN endpoint descriptor
    9, toByte h.USBDESCR_ENDPOINT, 0x81, 3, 8, 0, 10, 0, 0,
    -- class-specific MS bulk IN endpoint descriptor
    5, 37, 1, 1, 3 ]

/-- The values the pointer `usbMsgPtr` takes: the address of one of the two
tables, or some other address. -/
inductive MsgPtr where
  | deviceTable
  | configTable
  | other (addr : Nat)
  deriving DecidableEq, Repr

/-- The SETUP request `usbRequest_t` of `usbdrv.h`: the 8 bytes of the packet,
`wValue`, `wIndex` and `wLength` as `(bytes[0], bytes[1])`. -/
structure usbRequest_t where
  bmRequestType : Nat
  bRequest : Nat
  wValue : Nat × Nat
  wIndex : Nat × Nat
  wLength : Nat × Nat
  deriving DecidableEq, Repr

/-- The function `usbFunctionDescriptor` (lines 158-169): the returned `uchar`
and the value of `usbMsgPtr` after the call. -/
def usbFunctionDescriptor (h : UsbHeader) (usbMsgPtr : MsgPtr) (rq : usbRequest_t) :
    Nat × MsgPtr :=
  if rq.wValue.2 = h.USBDESCR_DEVICE then
    (toByte (deviceDescrMIDI h).length, MsgPtr.deviceTable)
  else if rq.wValue.2 = h.USBDESCR_CONFIG then
    (toByte (configDescrMIDI h).length, MsgPtr.configTable)
  else
    (0, usbMsgPtr)

/-- The function `usbFunctionSetup` (lines 171-184); `data` is the 8-byte
SETUP packet, whose byte 0 is `rq->bmRequestType`. Both `if` bodies are empty
in the source. -/
def usbFunctionSetup (h : UsbHeader) (data : List Nat) : Nat :=
  let bmRequestType := data.getD 0 0
  if bmRequestType &&& h.USBRQ_TYPE_MASK = h.USBRQ_TYPE_CLASS then
    if bmRequestType &&& h.USBRQ_DIR_MASK = h.USBRQ_DIR_HOST_TO_DEVICE then
      0xff
    else
      0xff
  else
    0xff

/-- The global `int i` and the register `PORTB`, the state touched by
`usbFunctionWriteOut`. -/
structure WriteOutState where
  i : Int
  PORTB : Nat
  deriving DecidableEq, Repr

/-- The function `usbFunctionWriteOut` (lines 206-222). `i++ % 24` uses the
value of `i` before the increment and the C remainder (truncating, `Int.tmod`);
the increment wraps at 16 bits. -/
def usbFunctionWriteOut (s : WriteOutState) (data : List Nat) (_len : Nat) :
    WriteOutState :=
  if data.getD 0 0 = 0x0f then
    if data.getD 1 0 = 0xf8 then
      let ni : Int := Int.tmod s.i 24
      let s1 : WriteOutState := { s with i := wrapInt16 (s.i + 1) }
      if ni = 0 then
        { s1 with PORTB := s1.PORTB ||| (1 <<< R_LED_PIN) }
      else if ni = 11 then
        { s1 with PORTB := s1.PORTB &&& not8 (1 <<< R_LED_PIN) }
      else s1
    else { s with i := 0 }
  else s

/-- The callback `usbFunctionWriteOut` called once for each received packet. -/
def writeOutRun (s : WriteOutState) (packets : List (List Nat)) : WriteOutState :=
  packets.foldl (fun st data => usbFunctionWriteOut st data data.length) s

/-! ## Boot sequence -/

/-- The externally visible actions of the start of `main`. -/
inductive BootAction where
  | wdt_disable
  | readCalibration
  | setOutputs
  | ledOn
  | ledOff
  | delay_ms (ms : Nat)
  | usbDeviceDisconnect
  | wdt_reset
  | usbDeviceConnect
  | adcSetup
  | wdt_enable
  | usbInit
  deriving DecidableEq, Repr

/-- The function `blink` (lines 231-236). -/
def blink : List BootAction :=
  [BootAction.ledOn, BootAction.delay_ms 200, BootAction.ledOff, BootAction.delay_ms 200]

/-- The loop `for(i=0;i<60;i++){ wdt_reset(); _delay_ms(15); }` (lines 258-261),
with `remaining` iterations still to run. -/
def disconnectLoop : Nat → List BootAction
  | 0 => []
  | remaining + 1 =>
    BootAction.wdt_reset :: BootAction.delay_ms 15 :: disconnectLoop remaining

/-- The action trace of `main` from its first statement to `usbInit()`
(lines 246-282). -/
def mainBoot : List BootAction :=
  [BootAction.wdt_disable, BootAction.readCalibration, BootAction.setOutputs]
  ++ blink
  ++ [BootAction.usbDeviceDisconnect]
  ++ disconnectLoop 60
  ++ [BootAction.usbDeviceConnect, BootAction.delay_ms 100, BootAction.adcSetup,
      BootAction.wdt_enable, BootAction.usbInit]

/-! ## Vocabulary used by the statements -/

/-- The kinds of USB-MIDI event packet, told apart by the first two bytes
(code index number, then MIDI status byte). -/
inductive MidiEvent where
  | noteOn
  | noteOff
  | controlChange
  | other
  deriving DecidableEq, Repr

/-- Classification of a packet: Note-On starts `0x09, 0x90`, Note-Off starts
`0x08, 0x80`, Control-Change starts `0x0B, 0xB0`. -/
def classify (pkt : Packet) : MidiEvent :=
  if pkt.take 2 = [0x09, 0x90] then MidiEvent.noteOn
  else if pkt.take 2 = [0x08, 0x80] then MidiEvent.noteOff
  else if pkt.take 2 = [0x0B, 0xB0] then MidiEvent.controlChange
  else MidiEvent.other

/-- Byte 3 of a packet (velocity of a Note-On, value of a Control-Change). -/
def valueByte (pkt : Packet) : Nat := pkt.getD 3 0

/-- The number of iterations of an input sequence on which
`usbInterruptIsReady()` is true. -/
def readyCount (inputs : List (Int × Bool)) : Nat :=
  inputs.countP (fun inp => inp.2)

/-- Well-formedness of an emitted packet stream, read from a position where
the key is on (`keyOn = true`) or off: a Note-On is allowed only while off and
turns the key on, a Note-Off is allowed only while on and turns it off, a
Control-Change is allowed only while on, and nothing else is allowed. -/
def alternates : Bool → List Packet → Bool
  | _, [] => true
  | keyOn, pkt :: rest =>
    match classify pkt, keyOn with
    | MidiEvent.noteOn, false => alternates true rest
    | MidiEvent.noteOff, true => alternates false rest
    | MidiEvent.controlChange, true => alternates true rest
    | _, _ => false

/-- The pressure scenario `0, 0, 50 (n times), 0, 0` with the endpoint ready
on every iteration. -/
def scenario (n : Nat) : List (Int × Bool) :=
  [(0, true), (0, true)] ++ List.replicate n (50, true) ++ [(0, true), (0, true)]

/-- The descriptor type values of the USB specification, which the comments
of the table also state (`descriptor type 2: CONFIGURATION`,
`descriptor type 4: INTERFACE`, `bDescriptorType 0x05: ENDPOINT`). -/
def UsbHeader.standardTypes (h : UsbHeader) : Prop :=
  h.USBDESCR_DEVICE = 1 ∧ h.USBDESCR_CONFIG = 2
    ∧ h.USBDESCR_INTERFACE = 4 ∧ h.USBDESCR_ENDPOINT = 5

/-- A sample header: two-byte IDs, the standard descriptor types and request
masks, bus powered, 100 mA. Used to instantiate the statements. -/
def sampleHeader : UsbHeader :=
  { USB_CFG_VENDOR_ID := [0xc0, 0x16],
    USB_CFG_DEVICE_ID := [0xe4, 0x05],
    USB_CFG_DEVICE_VERSION := [0x00, 0x01],
    USBDESCR_DEVICE := 1,
    USBDESCR_CONFIG := 2,
    USBDESCR_INTERFACE := 4,
    USBDESCR_ENDPOINT := 5,
    USBATTR_BUSPOWER := 0x80,
    USB_CFG_MAX_BUS_POWER := 100,
    USBRQ_TYPE_MASK := 0x60,
    USBRQ_TYPE_CLASS := 0x20,
    USBRQ_DIR_MASK := 0x80,
    USBRQ_DIR_HOST_TO_DEVICE := 0x00 }

/-- The walk over a descriptor table: start at `offset`, read the `bLength`
byte there, advance by it, until the offset is no longer inside the table (or
a `bLength` of 0 stops the walk). Returns the sub-descriptors visited, each
with its offset, and the offset at which the walk ends. -/
def descriptorWalk (table : List Nat) : Nat → Nat → List (Nat × List Nat) × Nat
  | 0, offset => ([], offset)
  | fuel + 1, offset =>
    if offset < table.length then
      let bLength := table.getD offset 0
      if bLength = 0 then ([(offset, table.drop offset)], offset)
      else
        let r := descriptorWalk table fuel (offset + bLength)
        ((offset, (table.drop offset).take bLength) :: r.1, r.2)
    else ([], offset)

/-- The sub-descriptors of a table with their offsets; the fuel `length + 1`
is enough for any table. -/
def subDescriptors (table : List Nat) : List (Nat × List Nat) :=
  (descriptorWalk table (table.length + 1) 0).1

/-- The offset at which the walk over a table ends. -/
def walkEnd (table : List Nat) : Nat :=
  (descriptorWalk table (table.length + 1) 0).2

/-- Field `bLength` of a sub-descriptor. -/
def bLength (d : List Nat) : Nat := d.getD 0 0

/-- Field `bDescriptorType` of a sub-descriptor. -/
def bDescriptorType (d : List Nat) : Nat := d.getD 1 0

/-- Field `bDescriptorSubtype` of a class-specific sub-descriptor. -/
def bDescriptorSubtype (d : List Nat) : Nat := d.getD 2 0

/-- The interface descriptors of the configuration table, in order. -/
def interfaceDescriptors (h : UsbHeader) : List (List Nat) :=
  ((subDescriptors (configDescrMIDI h)).map Prod.snd).filter
    (fun d => bDescriptorType d = h.USBDESCR_INTERFACE)

/-- The standard endpoint descriptors of the configuration table, in order. -/
def endpointDescriptors (h : UsbHeader) : List (List Nat) :=
  ((subDescriptors (configDescrMIDI h)).map Prod.snd).filter
    (fun d => bDescriptorType d = h.USBDESCR_ENDPOINT)

/-- A class-specific interface descriptor (type 36) that is a MIDI IN jack
(subtype 2) or a MIDI OUT jack (subtype 3). -/
def isJack (d : List Nat) : Bool :=
  bDescriptorType d = 36 && (bDescriptorSubtype d = 2 || bDescriptorSubtype d = 3)

/-- The jack descriptors of the configuration table, in order. -/
def jackDescriptors (h : UsbHeader) : List (List Nat) :=
  ((subDescriptors (configDescrMIDI h)).map Prod.snd).filter isJack

/-- Field `bJackID` of a jack descriptor. -/
def bJackID (d : List Nat) : Nat := d.getD 4 0

/-- Field `bJackType` of a jack descriptor (1 embedded, 2 external). -/
def bJackType (d : List Nat) : Nat := d.getD 3 0

/-- The `baSourceID` entries of a MIDI OUT jack descriptor: `bNrInputPins`
(byte 5) pairs `(baSourceID, baSourcePin)` start at byte 6. -/
def baSourceIDs (d : List Nat) : List Nat :=
  (List.range (d.getD 5 0)).map (fun pin => d.getD (6 + 2 * pin) 0)

/-- The `baAssocJackID` entries of a class-specific endpoint descriptor
(type 37): `bNumEmbMIDIJack` (byte 3) IDs start at byte 4. -/
def baAssocJackIDs (d : List Nat) : List Nat :=
  (d.drop 4).take (d.getD 3 0)

/-- A 16-bit little-endian field at byte `k` of a descriptor. -/
def wordAt (d : List Nat) (k : Nat) : Nat := d.getD k 0 + 256 * d.getD (k + 1) 0

/-- The statement of well-formedness of the configuration table. -/
def configWellFormed (h : UsbHeader) : Prop :=
  let table := configDescrMIDI h
  let subs := subDescriptors table
  let descrs := subs.map Prod.snd
  let jackIDs := (jackDescriptors h).map bJackID
  -- the walk visits 13 sub-descriptors, each with bLength ≥ 2, and ends at 101
  subs.length = 13
  ∧ (∀ d ∈ descrs, 2 ≤ bLength d ∧ d.length = bLength d)
  ∧ walkEnd table = 101 ∧ table.length = 101
  -- the MIDIStreaming header (the class-specific header that follows the
  -- interface with subclass 3) has wTotalLength 65 = bytes to the end
  ∧ (∃ pre ms hdr post, subs = pre ++ ms :: hdr :: post
      ∧ bDescriptorType ms.2 = h.USBDESCR_INTERFACE ∧ ms.2.getD 6 0 = 3
      ∧ bDescriptorType hdr.2 = 36 ∧ bDescriptorSubtype hdr.2 = 1
      ∧ wordAt hdr.2 5 = 65 ∧ wordAt hdr.2 5 = table.length - hdr.1)
  -- interface 1 declares as many endpoints as endpoint descriptors follow it
  ∧ (∃ pre ifc post, descrs = pre ++ ifc :: post
      ∧ bDescriptorType ifc = h.USBDESCR_INTERFACE ∧ ifc.getD 2 0 = 1
      ∧ ifc.getD 4 0 = 2
      ∧ (post.filter (fun d => bDescriptorType d = 5)).length = ifc.getD 4 0)
  -- jack IDs are pairwise distinct
  ∧ jackIDs.Nodup
  -- every source of an OUT jack and every associated jack of an endpoint is declared
  ∧ (∀ d ∈ jackDescriptors h, bDescriptorSubtype d = 3 → ∀ src ∈ baSourceIDs d, src ∈ jackIDs)
  ∧ (∀ d ∈ descrs, bDescriptorType d = 37 → ∀ j ∈ baAssocJackIDs d, j ∈ jackIDs)

/-- The actions of a trace strictly between `usbDeviceDisconnect()` and the
next `usbDeviceConnect()`. -/
def betweenDisconnectConnect (trace : List BootAction) : List BootAction :=
  ((trace.dropWhile (fun a => a ≠ BootAction.usbDeviceDisconnect)).drop 1).takeWhile
    (fun a => a ≠ BootAction.usbDeviceConnect)

/-- The sum of the delays of a trace, in ms. -/
def totalDelay : List BootAction → Nat
  | [] => 0
  | BootAction.delay_ms ms :: rest => ms + totalDelay rest
  | _ :: rest => totalDelay rest

/-- The delays accumulated between watchdog resets: `pending` is the delay since
the last `wdt_reset()` (or since the start); one entry for each `wdt_reset()`
and one for the end of the trace. -/
def resetGaps (pending : Nat) : List BootAction → List Nat
  | [] => [pending]
  | BootAction.wdt_reset :: rest => pending :: resetGaps 0 rest
  | BootAction.delay_ms ms :: rest => resetGaps (pending + ms) rest
  | _ :: rest => resetGaps pending rest

/-- A MIDI timing-clock packet as received on the OUT endpoint:
`data[0] = 0x0f`, `data[1] = 0xf8`. -/
def clockPacket : List Nat := [0x0f, 0xf8, 0x00, 0x00]

/-- The invariant of the main loop: the timer is within `0 .. DEBOUNCE` and is
positive only while the key is on. -/
def mainInvariant (s : MainState) : Prop :=
  0 ≤ s.recovering ∧ s.recovering ≤ DEBOUNCE ∧ (0 < s.recovering → s.keydown ≠ 0)

/-! ## Basic lemmas -/

theorem toUchar_clamp (r : Int) (h : 10 < r) :
    toUchar (if r > 127 then 127 else r) = (min r 127).toNat := by
  unfold toUchar
  by_cases h127 : r > 127
  · have hm : min r 127 = 127 := by omega
    simp [h127, hm]
  · have hm : min r 127 = r := by omega
    have hmod : r % 256 = r := by omega
    simp [h127, hm, hmod]

theorem toUchar_clamp_le (r : Int) (h : 10 < r) :
    toUchar (if r > 127 then 127 else r) ≤ 127 := by
  rw [toUchar_clamp r h]
  omega

theorem wrapInt16_pred (t : Int) (h0 : 0 < t) (h1 : t ≤ 32767) :
    wrapInt16 (t - 1) = t - 1 := by
  unfold wrapInt16
  omega

/-! ## Lemmas on runs -/

theorem mainRun_nil (s : MainState) : mainRun s [] = { state := s, out := [] } := rfl

theorem mainRun_foldl (inputs : List (Int × Bool)) (acc : StepResult) :
    inputs.foldl runStep acc
      = { state := (mainRun acc.state inputs).state,
          out := acc.out ++ (mainRun acc.state inputs).out } := by
  unfold mainRun
  induction inputs generalizing acc with
  | nil => simp
  | cons inp rest ih =>
    rw [List.foldl_cons, List.foldl_cons, ih (runStep acc inp),
      ih (runStep { state := acc.state, out := [] } inp)]
    simp [runStep, List.append_assoc]

theorem mainRun_cons (s : MainState) (inp : Int × Bool) (rest : List (Int × Bool)) :
    mainRun s (inp :: rest)
      = { state := (mainRun (mainStep s inp.1 inp.2).state rest).state,
          out := (mainStep s inp.1 inp.2).out
                  ++ (mainRun (mainStep s inp.1 inp.2).state rest).out } := by
  conv_lhs => unfold mainRun
  rw [List.foldl_cons, mainRun_foldl]
  simp [runStep]

theorem mainRun_append (s : MainState) (xs ys : List (Int × Bool)) :
    mainRun s (xs ++ ys)
      = { state := (mainRun (mainRun s xs).state ys).state,
          out := (mainRun s xs).out ++ (mainRun (mainRun s xs).state ys).out } := by
  induction xs generalizing s with
  | nil => simp [mainRun_nil]
  | cons inp rest ih =>
    rw [List.cons_append, mainRun_cons, ih, mainRun_cons]
    simp [List.append_assoc]

/-- While the timer is positive a run only counts it down: over any inputs
with at most `recovering` ready iterations nothing is emitted and the timer
drops by the number of ready iterations. -/
theorem mainRun_countdown (inputs : List (Int × Bool)) (s : MainState)
    (hc : (readyCount inputs : Int) ≤ s.recovering) (hi : s.recovering ≤ 32767) :
    mainRun s inputs
      = { state := { s with recovering := s.recovering - (readyCount inputs : Int) },
          out := [] } := by
  induction inputs generalizing s with
  | nil => simp [mainRun_nil, readyCount]
  | cons inp rest ih =>
    obtain ⟨p, ready⟩ := inp
    rw [mainRun_cons]
    cases ready with
    | false =>
      have hcnt : readyCount ((p, false) :: rest) = readyCount rest := by
        simp [readyCount]
      rw [hcnt] at hc ⊢
      have hstep : mainStep s p false = { state := s, out := [] } := by simp [mainStep]
      simp only [hstep]
      rw [ih s hc hi]
      simp
    | true =>
      have hcnt : readyCount ((p, true) :: rest) = readyCount rest + 1 := by
        simp [readyCount]
      rw [hcnt] at hc ⊢
      have hpos : 0 < s.recovering := by push_cast at hc; omega
      have hne : s.recovering ≠ 0 := by omega
      have hstep : mainStep s p true
          = { state := { s with recovering := s.recovering - 1 }, out := [] } := by
        simp [mainStep, hne, wrapInt16_pred s.recovering hpos hi]
      simp only [hstep]
      rw [ih { s with recovering := s.recovering - 1 }
        (by push_cast at hc; simp only []; omega) (by simp only []; omega)]
      simp only [List.nil_append]
      push_cast
      congr 2
      omega

theorem readyCount_replicate_ready (n : Nat) (p : Int) :
    readyCount (List.replicate n (p, true)) = n := by
  induction n with
  | zero => simp [readyCount]
  | succ k ih =>
    simp only [readyCount] at ih
    simp [readyCount, List.replicate_succ, ih]

/-- Every iteration either emits nothing and keeps `keydown`, or emits one
packet of the kind that fits the key state it started from. -/
theorem mainStep_cases (s : MainState) (p : Int) (ready : Bool) :
    ((mainStep s p ready).out = [] ∧ (mainStep s p ready).state.keydown = s.keydown)
    ∨ (s.keydown = 0 ∧ (mainStep s p ready).state.keydown = 1
        ∧ ∃ v, (mainStep s p ready).out = [[0x09, 0x90, 60, v, 0, 0, 0, 0]])
    ∨ (s.keydown ≠ 0 ∧ (mainStep s p ready).state.keydown = 0
        ∧ (mainStep s p ready).out = [[0x08, 0x80, 60, 0, 0, 0, 0, 0]])
    ∨ (s.keydown ≠ 0 ∧ (mainStep s p ready).state.keydown = s.keydown
        ∧ ∃ v, (mainStep s p ready).out = [[0x0B, 0xB0, 16, v, 0, 0, 0, 0]]) := by
  cases ready
  · left; simp [mainStep]
  · by_cases ht : s.recovering = 0
    · by_cases hp : 10 < p <;> by_cases hk : s.keydown = 0
      · right; left; simp [mainStep, ht, hp, hk]
      · right; right; right; simp [mainStep, ht, hp, hk]
      · left; simp [mainStep, ht, hp, hk]
      · right; right; left; simp [mainStep, ht, hp, hk]
    · left; simp [mainStep, ht]

/-- The output of a run from any state is well formed relative to the key
state the run starts from. -/
theorem alternates_mainRun (inputs : List (Int × Bool)) (s : MainState) :
    alternates (decide (s.keydown ≠ 0)) (mainRun s inputs).out = true := by
  induction inputs generalizing s with
  | nil => simp [mainRun_nil, alternates]
  | cons inp rest ih =>
    rw [mainRun_cons]
    have h := ih (mainStep s inp.1 inp.2).state
    rcases mainStep_cases s inp.1 inp.2 with
      ⟨ho, hk⟩ | ⟨hk0, hk, v, ho⟩ | ⟨hk0, hk, ho⟩ | ⟨hk0, hk, v, ho⟩
    · rw [hk] at h
      simpa [ho] using h
    · rw [hk] at h
      simp only [ho, List.singleton_append]
      simpa [alternates, classify, hk0] using h
    · rw [hk] at h
      simp only [ho, List.singleton_append]
      simpa [alternates, classify, hk0] using h
    · rw [hk] at h
      simp only [ho, List.singleton_append]
      simpa [alternates, classify, hk0] using h

/-! ## Lemmas on the press-and-hold scenario -/

/-- Two idle readings, then `k + 1` readings of 50 with `k ≤ 10000`, all
ready: one Note-On with velocity 50 and the timer counted down to
`10000 - k`. -/
theorem run_press_hold (k : Nat) (portb : Nat) (hk : (k : Int) ≤ 10000) :
    ∃ s1 : MainState,
      mainRun (mainInit portb)
          ([(0, true), (0, true)] ++ List.replicate (k + 1) (50, true))
        = { state := s1, out := [[0x09, 0x90, 60, 50, 0, 0, 0, 0]] }
      ∧ s1.recovering = 10000 - (k : Int) ∧ s1.keydown = 1 := by
  have hidle : mainRun (mainInit portb) [(0, true), (0, true)]
      = { state := mainInit portb, out := [] } := by
    simp [mainRun_cons, mainRun_nil, mainStep, mainInit]
  have hbyte : toUchar 50 = 50 := by decide
  have hon : mainStep (mainInit portb) 50 true
      = { state := { recovering := 10000, keydown := 1,
                     PORTB := portb ||| (1 <<< R_LED_PIN) },
          out := [[0x09, 0x90, 60, 50, 0, 0, 0, 0]] } := by
    simp [mainStep, mainInit, hbyte, DEBOUNCE]
  have hcnt := readyCount_replicate_ready k 50
  have hdown := mainRun_countdown (List.replicate k ((50 : Int), true))
    { recovering := 10000, keydown := 1, PORTB := portb ||| (1 <<< R_LED_PIN) }
    (by rw [hcnt]; exact hk) (by norm_num)
  rw [hcnt] at hdown
  refine ⟨{ recovering := 10000 - (k : Int), keydown := 1,
            PORTB := portb ||| (1 <<< R_LED_PIN) }, ?_, rfl, rfl⟩
  rw [mainRun_append, hidle, List.replicate_succ, mainRun_cons]
  simp only [hon, hdown, List.nil_append, List.append_nil]

/-- Two idle readings, then `10002 + j` readings of 50 with `j ≤ 10000`, all
ready: the key is still held when the debounce window expires, so the
Note-On is followed by a Control-Change, and the timer restarts. -/
theorem run_press_hold_long (j : Nat) (portb : Nat) (hj : (j : Int) ≤ 10000) :
    ∃ s2 : MainState,
      mainRun (mainInit portb)
          ([(0, true), (0, true)] ++ List.replicate (10000 + 1 + (1 + j)) (50, true))
        = { state := s2,
            out := [[0x09, 0x90, 60, 50, 0, 0, 0, 0], [0x0B, 0xB0, 16, 50, 0, 0, 0, 0]] }
      ∧ s2.recovering = 10000 - (j : Int) ∧ s2.keydown = 1 := by
  obtain ⟨s1, hrun, hrec, hkey⟩ := run_press_hold 10000 portb (by norm_num)
  have hrec0 : s1.recovering = 0 := by rw [hrec]; norm_num
  have hbyte : toUchar 50 = 50 := by decide
  have hcc : mainStep s1 50 true
      = { state := { recovering := 10000, keydown := 1,
                     PORTB := s1.PORTB ||| (1 <<< G_LED_PIN) },
          out := [[0x0B, 0xB0, 16, 50, 0, 0, 0, 0]] } := by
    simp [mainStep, hrec0, hkey, hbyte, DEBOUNCE]
  have hcnt := readyCount_replicate_ready j 50
  have hdown := mainRun_countdown (List.replicate j ((50 : Int), true))
    { recovering := 10000, keydown := 1, PORTB := s1.PORTB ||| (1 <<< G_LED_PIN) }
    (by rw [hcnt]; exact hj) (by norm_num)
  rw [hcnt] at hdown
  refine ⟨{ recovering := 10000 - (j : Int), keydown := 1,
            PORTB := s1.PORTB ||| (1 <<< G_LED_PIN) }, ?_, rfl, rfl⟩
  rw [List.replicate_add, ← List.append_assoc, mainRun_append, hrun,
    List.replicate_add, List.replicate_one, List.singleton_append, mainRun_cons]
  simp only [hcc, hdown, List.nil_append, List.append_nil, List.singleton_append]

/-! ## Lemmas on the loop invariant -/

theorem mainStep_invariant (s : MainState) (p : Int) (ready : Bool)
    (hs : mainInvariant s) : mainInvariant (mainStep s p ready).state := by
  obtain ⟨h0, h1, h2⟩ := hs
  unfold DEBOUNCE at h1
  cases ready
  · simpa [mainStep, mainInvariant, DEBOUNCE] using ⟨h0, h1, h2⟩
  · by_cases ht : s.recovering = 0
    · by_cases hp : 10 < p <;> by_cases hk : s.keydown = 0 <;>
        simp [mainStep, mainInvariant, DEBOUNCE, ht, hp, hk]
    · have hpos : 0 < s.recovering := by omega
      have hw := wrapInt16_pred s.recovering hpos (by omega)
      have hk := h2 hpos
      simp only [mainStep, mainInvariant, DEBOUNCE, if_pos ht, hw, if_true]
      refine ⟨by omega, by omega, fun _ => hk⟩

theorem mainRun_invariant (inputs : List (Int × Bool)) (s : MainState)
    (hs : mainInvariant s) : mainInvariant (mainRun s inputs).state := by
  induction inputs generalizing s with
  | nil => simpa [mainRun_nil] using hs
  | cons inp rest ih =>
    rw [mainRun_cons]
    exact ih _ (mainStep_invariant s inp.1 inp.2 hs)

/-! ## Lemmas on the disconnect loop -/

theorem takeWhile_disconnectLoop (n : Nat) (rest : List BootAction) :
    (disconnectLoop n ++ BootAction.usbDeviceConnect :: rest).takeWhile
        (fun a => a ≠ BootAction.usbDeviceConnect)
      = disconnectLoop n := by
  induction n with
  | zero => simp [disconnectLoop]
  | succ k ih =>
    simp only [disconnectLoop, List.cons_append]
    rw [List.takeWhile_cons_of_pos (by decide), List.takeWhile_cons_of_pos (by simp), ih]

theorem totalDelay_disconnectLoop (n : Nat) : totalDelay (disconnectLoop n) = 15 * n := by
  induction n with
  | zero => simp [disconnectLoop, totalDelay]
  | succ k ih =>
    simp only [disconnectLoop, totalDelay, ih]
    omega

theorem count_disconnectLoop (n : Nat) :
    (disconnectLoop n).count BootAction.wdt_reset = n := by
  induction n with
  | zero => simp [disconnectLoop]
  | succ k ih => simp [disconnectLoop, ih]

theorem resetGaps_disconnectLoop (n : Nat) (pending : Nat) (hp : pending ≤ 15) :
    ∀ gap ∈ resetGaps pending (disconnectLoop n), gap ≤ 15 := by
  induction n generalizing pending with
  | zero =>
    intro gap hmem
    simp [disconnectLoop, resetGaps] at hmem
    omega
  | succ k ih =>
    intro gap hmem
    simp only [disconnectLoop, resetGaps, List.mem_cons, Nat.zero_add] at hmem
    rcases hmem with rfl | hmem
    · exact hp
    · exact ih 15 (le_refl 15) gap hmem

theorem between_mainBoot : betweenDisconnectConnect mainBoot = disconnectLoop 60 := by
  have hdrop : (mainBoot.dropWhile (fun a => a ≠ BootAction.usbDeviceDisconnect)).drop 1
      = disconnectLoop 60 ++ BootAction.usbDeviceConnect ::
          [BootAction.delay_ms 100, BootAction.adcSetup, BootAction.wdt_enable,
           BootAction.usbInit] := by
    simp [mainBoot, blink, List.dropWhile]
  unfold betweenDisconnectConnect
  rw [hdrop, takeWhile_disconnectLoop]

/-! ## Lemmas on the configuration descriptor walk -/

set_option maxHeartbeats 1000000 in
theorem walk_config (h : UsbHeader) :
    descriptorWalk (configDescrMIDI h) ((configDescrMIDI h).length + 1) 0
      = ([ (0, [9, toByte h.USBDESCR_CONFIG, 101, 0, 2, 1, 0,
                toByte h.USBATTR_BUSPOWER, toByte (h.USB_CFG_MAX_BUS_POWER / 2)]),
          (9, [9, toByte h.USBDESCR_INTERFACE, 0, 0, 0, 1, 1, 0, 0]),
          (18, [9, 36, 1, 0x0, 0x01, 9, 0, 1, 1]),
          (27, [9, toByte h.USBDESCR_INTERFACE, 1, 0, 2, 1, 3, 0, 0]),
          (36, [7, 36, 1, 0x0, 0x01, 65, 0]),
          (43, [6, 36, 2, 1, 1, 0]),
          (49, [6, 36, 2, 2, 2, 0]),
          (55, [9, 36, 3, 1, 3, 1, 2, 1, 0]),
          (64, [9, 36, 3, 2, 4, 1, 1, 1, 0]),
          (73, [9, toByte h.USBDESCR_ENDPOINT, 0x1, 3, 8, 0, 10, 0, 0]),
          (82, [5, 37, 1, 1, 1]),
          (87, [9, toByte h.USBDESCR_ENDPOINT, 0x81, 3, 8, 0, 10, 0, 0]),
          (96, [5, 37, 1, 1, 3]) ], 101) := by
  simp [descriptorWalk, configDescrMIDI]

/-- With the standard descriptor type values, the sub-descriptors of the
configuration table are these 13; only the attribute and power bytes of the
first one depend on the header. -/
theorem subDescriptors_config (h : UsbHeader) (hs : h.standardTypes) :
    subDescriptors (configDescrMIDI h)
      = [ (0, [9, 2, 101, 0, 2, 1, 0,
                toByte h.USBATTR_BUSPOWER, toByte (h.USB_CFG_MAX_BUS_POWER / 2)]),
          (9, [9, 4, 0, 0, 0, 1, 1, 0, 0]),
          (18, [9, 36, 1, 0, 1, 9, 0, 1, 1]),
          (27, [9, 4, 1, 0, 2, 1, 3, 0, 0]),
          (36, [7, 36, 1, 0, 1, 65, 0]),
          (43, [6, 36, 2, 1, 1, 0]),
          (49, [6, 36, 2, 2, 2, 0]),
          (55, [9, 36, 3, 1, 3, 1, 2, 1, 0]),
          (64, [9, 36, 3, 2, 4, 1, 1, 1, 0]),
          (73, [9, 5, 1, 3, 8, 0, 10, 0, 0]),
          (82, [5, 37, 1, 1, 1]),
          (87, [9, 5, 129, 3, 8, 0, 10, 0, 0]),
          (96, [5, 37, 1, 1, 3]) ] := by
  obtain ⟨-, h2, h3, h4⟩ := hs
  unfold subDescriptors
  rw [walk_config]
  simp [h2, h3, h4, toByte]

theorem walkEnd_config (h : UsbHeader) : walkEnd (configDescrMIDI h) = 101 := by
  unfold walkEnd
  rw [walk_config]

theorem interfaceDescriptors_config (h : UsbHeader) (hs : h.standardTypes) :
    interfaceDescriptors h = [[9, 4, 0, 0, 0, 1, 1, 0, 0], [9, 4, 1, 0, 2, 1, 3, 0, 0]] := by
  unfold interfaceDescriptors
  rw [subDescriptors_config h hs]
  obtain ⟨-, -, h3, -⟩ := hs
  simp [h3, bDescriptorType, List.filter]

theorem endpointDescriptors_config (h : UsbHeader) (hs : h.standardTypes) :
    endpointDescriptors h
      = [[9, 5, 0x01, 3, 8, 0, 10, 0, 0], [9, 5, 0x81, 3, 8, 0, 10, 0, 0]] := by
  unfold endpointDescriptors
  rw [subDescriptors_config h hs]
  obtain ⟨-, -, -, h4⟩ := hs
  simp [h4, bDescriptorType, List.filter]

theorem jackDescriptors_config (h : UsbHeader) (hs : h.standardTypes) :
    jackDescriptors h
      = [[6, 36, 2, 1, 1, 0], [6, 36, 2, 2, 2, 0],
         [9, 36, 3, 1, 3, 1, 2, 1, 0], [9, 36, 3, 2, 4, 1, 1, 1, 0]] := by
  unfold jackDescriptors
  rw [subDescriptors_config h hs]
  simp [isJack, bDescriptorType, bDescriptorSubtype, List.filter]

theorem sampleHeader_standardTypes : sampleHeader.standardTypes := by
  simp [UsbHeader.standardTypes, sampleHeader]

/-! ## Lemmas on the ADC interrupt -/

theorem adcRun_snoc (a : AdcState) (raws : List Nat) (v : Nat) :
    adcRun a (raws ++ [v]) = ADC_vect (adcRun a raws) v := by
  simp [adcRun, List.foldl_append]

/-- The settle counter after `n` firings from a state with counter -1. -/
theorem adcRun_counter (raws : List Nat) (a : AdcState) (ha : a.recovering_adc = -1) :
    (adcRun a raws).recovering_adc
      = if raws.length % 302 = 0 then -1 else 301 - ((raws.length % 302 : Nat) : Int) := by
  induction raws using List.reverseRecOn with
  | nil => simp [adcRun, ha]
  | append_singleton xs v ih =>
    rw [adcRun_snoc, List.length_append, List.length_singleton]
    by_cases h0 : xs.length % 302 = 0
    · rw [if_pos h0] at ih
      have h1 : (xs.length + 1) % 302 = 1 := by omega
      simp [ADC_vect, ih, h1]
    · rw [if_neg h0] at ih
      by_cases h301 : xs.length % 302 = 301
      · have hc : (adcRun a xs).recovering_adc = 0 := by rw [ih, h301]; norm_num
        have h1 : (xs.length + 1) % 302 = 0 := by omega
        simp [ADC_vect, hc, h1]
      · have hlt : xs.length % 302 < 302 := Nat.mod_lt _ (by norm_num)
        have h1 : (xs.length + 1) % 302 = xs.length % 302 + 1 := by omega
        have hne1 : (adcRun a xs).recovering_adc ≠ -1 := by rw [ih]; omega
        have hne0 : (adcRun a xs).recovering_adc ≠ 0 := by rw [ih]; omega
        have hw : wrapInt16 ((adcRun a xs).recovering_adc - 1)
            = (adcRun a xs).recovering_adc - 1 :=
          wrapInt16_pred _ (by rw [ih]; omega) (by rw [ih]; omega)
        have hne : (xs.length + 1) % 302 ≠ 0 := by omega
        simp only [ADC_vect, if_neg hne1, if_pos hne0, hw, if_neg hne]
        rw [ih, h1]
        push_cast
        omega

theorem adcRun_pressure_kept (raws : List Nat) (a : AdcState)
    (ha : a.recovering_adc = -1) (hlen : raws.length ≤ 301) :
    (adcRun a raws).pressure = a.pressure := by
  induction raws using List.reverseRecOn with
  | nil => simp [adcRun]
  | append_singleton xs v ih =>
    rw [List.length_append, List.length_singleton] at hlen
    have hc := adcRun_counter xs a ha
    have hmod : xs.length % 302 = xs.length := Nat.mod_eq_of_lt (by omega)
    rw [hmod] at hc
    have hne0 : (adcRun a xs).recovering_adc ≠ 0 := by
      rw [hc]; split_ifs <;> omega
    rw [adcRun_snoc]
    by_cases h1 : (adcRun a xs).recovering_adc = -1
    · simp [ADC_vect, h1, ih (by omega)]
    · simp [ADC_vect, h1, hne0, ih (by omega)]

theorem adcRun_pressure_range (raws : List Nat) (hraw : ∀ v ∈ raws, v ≤ 1023) :
    0 ≤ (adcRun adcInit raws).pressure ∧ (adcRun adcInit raws).pressure ≤ 255 := by
  induction raws using List.reverseRecOn with
  | nil => simp [adcRun, adcInit]
  | append_singleton xs v ih =>
    have hxs : ∀ w ∈ xs, w ≤ 1023 := fun w hw => hraw w (by simp [hw])
    have hv : v ≤ 1023 := hraw v (by simp)
    obtain ⟨i0, i1⟩ := ih hxs
    rw [adcRun_snoc]
    by_cases h1 : (adcRun adcInit xs).recovering_adc = -1
    · simpa [ADC_vect, h1] using ⟨i0, i1⟩
    · by_cases h0 : (adcRun adcInit xs).recovering_adc = 0
      · have hq : v % 65536 / 4 ≤ 255 := by omega
        simp only [ADC_vect, if_neg h1, h0, ne_eq, not_true_eq_false, if_false]
        exact ⟨Int.ofNat_nonneg _, by
          show ((v % 65536 / 4 : Nat) : Int) ≤ 255
          exact_mod_cast hq⟩
      · simpa [ADC_vect, h1, h0] using ⟨i0, i1⟩

/-! ## Lemmas on the clock packet counter -/

theorem writeOut_clock_on (i i2 : Int) (P len : Nat)
    (h0 : Int.tmod i 24 = 0) (hw : wrapInt16 (i + 1) = i2) :
    usbFunctionWriteOut { i := i, PORTB := P } clockPacket len
      = { i := i2, PORTB := P ||| 1 } := by
  simp [usbFunctionWriteOut, clockPacket, h0, hw, R_LED_PIN]

theorem writeOut_clock_off (i i2 : Int) (P len : Nat)
    (h11 : Int.tmod i 24 = 11) (hw : wrapInt16 (i + 1) = i2) :
    usbFunctionWriteOut { i := i, PORTB := P } clockPacket len
      = { i := i2, PORTB := P &&& 254 } := by
  simp [usbFunctionWriteOut, clockPacket, h11, hw, R_LED_PIN, not8]

theorem writeOut_clock_idle (i i2 : Int) (P len : Nat)
    (h0 : Int.tmod i 24 ≠ 0) (h11 : Int.tmod i 24 ≠ 11) (hw : wrapInt16 (i + 1) = i2) :
    usbFunctionWriteOut { i := i, PORTB := P } clockPacket len
      = { i := i2, PORTB := P } := by
  simp [usbFunctionWriteOut, clockPacket, h0, h11, hw]

/-- While the counter is in `0 .. 32766` a clock packet increments it and
acts on `PORTB` according to the counter modulo 24. -/
theorem writeOut_clock_in_range (s : WriteOutState) (len : Nat)
    (h0 : 0 ≤ s.i) (h1 : s.i ≤ 32766) :
    usbFunctionWriteOut s clockPacket len
      = { i := s.i + 1,
          PORTB := if s.i % 24 = 0 then s.PORTB ||| 1
                   else if s.i % 24 = 11 then s.PORTB &&& 254
                   else s.PORTB } := by
  have hw : wrapInt16 (s.i + 1) = s.i + 1 := by unfold wrapInt16; omega
  have ht : Int.tmod s.i 24 = s.i % 24 := Int.tmod_eq_emod h0 (by norm_num)
  obtain ⟨i, P⟩ := s
  simp only at hw ht ⊢
  by_cases c0 : i % 24 = 0
  · rw [writeOut_clock_on i (i + 1) P len (by rw [ht]; exact c0) hw, if_pos c0]
  · by_cases c11 : i % 24 = 11
    · rw [writeOut_clock_off i (i + 1) P len (by rw [ht]; exact c11) hw, if_neg c0,
        if_pos c11]
    · rw [writeOut_clock_idle i (i + 1) P len (by rw [ht]; exact c0)
        (by rw [ht]; exact c11) hw, if_neg c0, if_neg c11]

theorem writeOutRun_clock_counter (n : Nat) (s : WriteOutState)
    (h0 : 0 ≤ s.i) (h1 : s.i + (n : Int) ≤ 32767) :
    (writeOutRun s (List.replicate n clockPacket)).i = s.i + (n : Int) := by
  induction n generalizing s with
  | zero => simp [writeOutRun]
  | succ k ih =>
    have hstep := writeOut_clock_in_range s clockPacket.length h0 (by push_cast at h1; omega)
    simp only [writeOutRun, List.replicate_succ, List.foldl_cons] at ih ⊢
    rw [hstep, ih _ (by show (0 : Int) ≤ s.i + 1; omega)
      (by show s.i + 1 + (k : Int) ≤ 32767; push_cast at h1; omega)]
    push_cast
    omega

/-- After 32771 clock packets from counter 0 the counter has wrapped to
-32765 and the red LED bit, set by packet 32760, is still set. -/
theorem writeOutRun_overflow (p0 : Nat) :
    ∃ P : Nat, writeOutRun { i := 0, PORTB := p0 } (List.replicate (32760 + 11) clockPacket)
      = { i := -32765, PORTB := P ||| 1 } := by
  have hc := writeOutRun_clock_counter 32760 { i := 0, PORTB := p0 } (le_refl _) (by norm_num)
  refine ⟨(writeOutRun { i := 0, PORTB := p0 } (List.replicate 32760 clockPacket)).PORTB, ?_⟩
  generalize hs : writeOutRun { i := 0, PORTB := p0 } (List.replicate 32760 clockPacket) = s1
    at hc ⊢
  obtain ⟨i1, P⟩ := s1
  have hi : i1 = 32760 := by simpa using hc
  subst hi
  have h11 : List.replicate 11 clockPacket
      = [clockPacket, clockPacket, clockPacket, clockPacket, clockPacket, clockPacket,
         clockPacket, clockPacket, clockPacket, clockPacket, clockPacket] := rfl
  rw [List.replicate_add]
  unfold writeOutRun at hs ⊢
  rw [List.foldl_append, hs, h11]
  simp only [List.foldl_cons, List.foldl_nil]
  rw [writeOut_clock_on 32760 32761 P _ (by decide) (by decide),
    writeOut_clock_idle 32761 32762 _ _ (by decide) (by decide) (by decide),
    writeOut_clock_idle 32762 32763 _ _ (by decide) (by decide) (by decide),
    writeOut_clock_idle 32763 32764 _ _ (by decide) (by decide) (by decide),
    writeOut_clock_idle 32764 32765 _ _ (by decide) (by decide) (by decide),
    writeOut_clock_idle 32765 32766 _ _ (by decide) (by decide) (by decide),
    writeOut_clock_idle 32766 32767 _ _ (by decide) (by decide) (by decide),
    writeOut_clock_idle 32767 (-32768) _ _ (by decide) (by decide) (by decide),
    writeOut_clock_idle (-32768) (-32767) _ _ (by decide) (by decide) (by decide),
    writeOut_clock_idle (-32767) (-32766) _ _ (by decide) (by decide) (by decide),
    writeOut_clock_idle (-32766) (-32765) _ _ (by decide) (by decide) (by decide)]

theorem testBit_254 (b : Nat) (h1 : 1 ≤ b) (h8 : b < 8) : Nat.testBit 254 b = true := by
  interval_cases b <;> decide

theorem writeOut_clock_portb (s : WriteOutState) (len : Nat) (h0 : 0 ≤ s.i) :
    (usbFunctionWriteOut s clockPacket len).PORTB
      = if s.i % 24 = 0 then s.PORTB ||| 1
        else if s.i % 24 = 11 then s.PORTB &&& 254
        else s.PORTB := by
  have ht : Int.tmod s.i 24 = s.i % 24 := Int.tmod_eq_emod h0 (by norm_num)
  obtain ⟨i, P⟩ := s
  simp only at ht ⊢
  by_cases c0 : i % 24 = 0
  · rw [writeOut_clock_on i _ P len (by rw [ht]; exact c0) rfl, if_pos c0]
  · by_cases c11 : i % 24 = 11
    · rw [writeOut_clock_off i _ P len (by rw [ht]; exact c11) rfl, if_neg c0, if_pos c11]
    · rw [writeOut_clock_idle i _ P len (by rw [ht]; exact c0) (by rw [ht]; exact c11) rfl,
        if_neg c0, if_neg c11]

/-- No call changes a bit of `PORTB` other than bit 0, the red LED bit. -/
theorem writeOut_other_bits (s : WriteOutState) (data : List Nat) (len : Nat) (b : Nat)
    (h1 : 1 ≤ b) (h8 : b < 8) :
    (usbFunctionWriteOut s data len).PORTB.testBit b = s.PORTB.testBit b := by
  have hb : b ≠ 0 := by omega
  have h254 := testBit_254 b h1 h8
  have hone : Nat.testBit 1 b = false := by
    cases hq : Nat.testBit 1 b
    · rfl
    · exact absurd (Nat.testBit_one_eq_true_iff_self_eq_zero.mp hq) hb
  unfold usbFunctionWriteOut
  simp only [R_LED_PIN, not8]
  split_ifs
  · simp [Nat.testBit_or, hone]
  · simp [Nat.testBit_and, h254]
  · rfl
  · rfl
  · rfl

/-! ## Single-iteration rows of the transition table -/

/-- C1 (Note-On row): for every pressure reading `r > 10`, a ready iteration
started with the key off and the debounce timer at 0 emits exactly one packet,
the 8 bytes `[0x09, 0x90, 60, min(r,127), 0, 0, 0, 0]`, and leaves the key on
(`keydown = 1`) and the timer at `DEBOUNCE`, which is 10000. -/
theorem C1_note_on_row (s : MainState) (r : Int)
    (hr : r > 10) (hk : s.keydown = 0) (ht : s.recovering = 0) :
    (mainStep s r true).out = [[0x09, 0x90, 60, (min r 127).toNat, 0, 0, 0, 0]]
      ∧ (mainStep s r true).state.keydown = 1
      ∧ (mainStep s r true).state.keydown ≠ 0
      ∧ (mainStep s r true).state.recovering = DEBOUNCE
      ∧ DEBOUNCE = 10000 := by
  have hv := toUchar_clamp r hr
  have hr' : 10 < r := hr
  simp [mainStep, hk, ht, hr', hv, DEBOUNCE]

/-- Witness of C1 at the initial state with reading 50. -/
theorem C1_note_on_row_witness :
    (mainStep (mainInit 0) 50 true).out = [[0x09, 0x90, 60, 50, 0, 0, 0, 0]]
      ∧ (mainStep (mainInit 0) 50 true).state.keydown = 1
      ∧ (mainStep (mainInit 0) 50 true).state.keydown ≠ 0
      ∧ (mainStep (mainInit 0) 50 true).state.recovering = DEBOUNCE
      ∧ DEBOUNCE = 10000 :=
  C1_note_on_row (mainInit 0) 50 (by decide) rfl rfl

/-- C2 (Note-Off row): for every pressure reading `r ≤ 10`, a ready iteration
started with the key on and the debounce timer at 0 emits exactly one packet,
the 8 bytes `[0x08, 0x80, 60, 0, 0, 0, 0, 0]`, and leaves the key off and the
timer still 0. -/
theorem C2_note_off_row (s : MainState) (r : Int)
    (hr : r ≤ 10) (hk : s.keydown ≠ 0) (ht : s.recovering = 0) :
    (mainStep s r true).out = [[0x08, 0x80, 60, 0, 0, 0, 0, 0]]
      ∧ (mainStep s r true).state.keydown = 0
      ∧ (mainStep s r true).state.recovering = 0 := by
  have hr' : ¬ 10 < r := by omega
  simp [mainStep, hk, ht, hr']

/-- Witness of C2 at key on, timer 0, reading 3. -/
theorem C2_note_off_row_witness :
    (mainStep { recovering := 0, keydown := 1, PORTB := 1 } 3 true).out
        = [[0x08, 0x80, 60, 0, 0, 0, 0, 0]]
      ∧ (mainStep { recovering := 0, keydown := 1, PORTB := 1 } 3 true).state.keydown = 0
      ∧ (mainStep { recovering := 0, keydown := 1, PORTB := 1 } 3 true).state.recovering = 0 :=
  C2_note_off_row { recovering := 0, keydown := 1, PORTB := 1 } 3
    (by decide) (by decide) rfl

/-- C3 (Aftertouch row): for every pressure reading `r > 10`, a ready
iteration started with the key on and the debounce timer at 0 emits exactly
one packet, the 8 bytes `[0x0B, 0xB0, 16, min(r,127), 0, 0, 0, 0]`, keeps the
key on (`keydown` is unchanged) and resets the timer to `DEBOUNCE` (10000). -/
theorem C3_aftertouch_row (s : MainState) (r : Int)
    (hr : r > 10) (hk : s.keydown ≠ 0) (ht : s.recovering = 0) :
    (mainStep s r true).out = [[0x0B, 0xB0, 16, (min r 127).toNat, 0, 0, 0, 0]]
      ∧ (mainStep s r true).state.keydown = s.keydown
      ∧ (mainStep s r true).state.keydown ≠ 0
      ∧ (mainStep s r true).state.recovering = DEBOUNCE
      ∧ DEBOUNCE = 10000 := by
  have hv := toUchar_clamp r hr
  have hr' : 10 < r := hr
  simp [mainStep, hk, ht, hr', hv, DEBOUNCE]

/-- Witness of C3 at key on, timer 0, reading 200 (clamped to 127). -/
theorem C3_aftertouch_row_witness :
    (mainStep { recovering := 0, keydown := 1, PORTB := 1 } 200 true).out
        = [[0x0B, 0xB0, 16, 127, 0, 0, 0, 0]]
      ∧ (mainStep { recovering := 0, keydown := 1, PORTB := 1 } 200 true).state.keydown = 1
      ∧ (mainStep { recovering := 0, keydown := 1, PORTB := 1 } 200 true).state.keydown ≠ 0
      ∧ (mainStep { recovering := 0, keydown := 1, PORTB := 1 } 200 true).state.recovering
          = DEBOUNCE
      ∧ DEBOUNCE = 10000 :=
  C3_aftertouch_row { recovering := 0, keydown := 1, PORTB := 1 } 200
    (by decide) (by decide) rfl

/-- C4 (debounce window): from any state with the key on and timer `t > 0`
(`t` a 16-bit `int`, so `t ≤ 32767`), a ready iteration emits no packet,
keeps the key on and sets the timer to `t - 1`, whatever the reading; nothing
else in the state changes. Consequently, after a Note-On (a ready iteration
with reading `> 10` from key off, timer 0), over any following inputs with
readings `> 10` of which at most `DEBOUNCE` are ready iterations, no packet at
all is emitted (no second Note-On, no Note-Off) and the only state change is
that the timer has dropped from `DEBOUNCE` by the number of ready iterations. -/
theorem C4_debounce_window (s : MainState) (r : Int)
    (ht : 0 < s.recovering) (hi : s.recovering ≤ 32767) (hk : s.keydown ≠ 0) :
    ((mainStep s r true).out = []
      ∧ (mainStep s r true).state.keydown ≠ 0
      ∧ (mainStep s r true).state.recovering = s.recovering - 1
      ∧ (mainStep s r true).state = { s with recovering := s.recovering - 1 })
    ∧ ∀ (s0 : MainState) (r0 : Int) (inputs : List (Int × Bool)),
        r0 > 10 → s0.keydown = 0 → s0.recovering = 0 →
        (∀ inp ∈ inputs, inp.1 > 10) →
        (readyCount inputs : Int) ≤ DEBOUNCE →
        mainRun (mainStep s0 r0 true).state inputs
          = { state := { (mainStep s0 r0 true).state with
                recovering := DEBOUNCE - (readyCount inputs : Int) },
              out := [] } := by
  have hne : s.recovering ≠ 0 := by omega
  have hstep : mainStep s r true
      = { state := { s with recovering := s.recovering - 1 }, out := [] } := by
    simp [mainStep, hne, wrapInt16_pred s.recovering ht hi]
  refine ⟨⟨by rw [hstep], by rw [hstep]; exact hk, by rw [hstep], by rw [hstep]⟩, ?_⟩
  intro s0 r0 inputs hr0 hk0 ht0 _ hcnt
  have hr0' : 10 < r0 := hr0
  have hrec : (mainStep s0 r0 true).state.recovering = DEBOUNCE := by
    simp [mainStep, hk0, ht0, hr0']
  have hrun := mainRun_countdown inputs (mainStep s0 r0 true).state
    (by rw [hrec]; exact hcnt) (by rw [hrec]; decide)
  rw [hrun, hrec]

/-- Witness of C4: one step at key on, timer 7, reading 500; and the three
inputs after a Note-On from the initial state, two of them ready. -/
theorem C4_debounce_window_witness :
    ((mainStep { recovering := 7, keydown := 1, PORTB := 1 } 500 true).out = []
      ∧ (mainStep { recovering := 7, keydown := 1, PORTB := 1 } 500 true).state
          = { recovering := 6, keydown := 1, PORTB := 1 })
    ∧ mainRun (mainStep (mainInit 0) 50 true).state [(50, true), (60, false), (70, true)]
        = { state := { recovering := 9998, keydown := 1, PORTB := 1 }, out := [] } :=
  ⟨⟨(C4_debounce_window { recovering := 7, keydown := 1, PORTB := 1 } 500
        (by decide) (by decide) (by decide)).1.1,
    (C4_debounce_window { recovering := 7, keydown := 1, PORTB := 1 } 500
        (by decide) (by decide) (by decide)).1.2.2.2⟩,
   (C4_debounce_window { recovering := 7, keydown := 1, PORTB := 1 } 500
        (by decide) (by decide) (by decide)).2 (mainInit 0) 50
      [(50, true), (60, false), (70, true)] (by decide) rfl rfl (by decide) (by decide)⟩

/-- C5 (idle stays idle): for every pressure reading `r ≤ 10`, an iteration
started with the key off emits no packet and leaves the key off, whether or
not the endpoint is ready and whatever the timer. -/
theorem C5_idle_stays_idle (s : MainState) (r : Int) (ready : Bool)
    (hr : r ≤ 10) (hk : s.keydown = 0) :
    (mainStep s r ready).out = [] ∧ (mainStep s r ready).state.keydown = 0 := by
  have hr' : ¬ 10 < r := by omega
  cases ready <;> by_cases ht : s.recovering = 0 <;> simp [mainStep, hk, ht, hr']

/-- Witness of C5 at the initial state with reading 10 and the endpoint ready. -/
theorem C5_idle_stays_idle_witness :
    (mainStep (mainInit 0) 10 true).out = []
      ∧ (mainStep (mainInit 0) 10 true).state.keydown = 0 :=
  C5_idle_stays_idle (mainInit 0) 10 true (by decide) rfl

/-- C6 (value byte range): for every reading (any `int`, in particular every
reading in `[0,1023]`), every state and either readiness, byte 3 of any
Note-On or Control-Change packet emitted by the iteration is at most 127 (it
is a `Nat`, so at least 0). End to end: when the ADC interrupt fires in the
Reporting state with a raw conversion in `[0,1023]`, the value it stores is in
`[0,255]` and the same bound holds for an iteration that reads this stored
value. -/
theorem C6_value_byte_range (s : MainState) (r : Int) (ready : Bool) :
    (∀ pkt ∈ (mainStep s r ready).out,
        classify pkt = MidiEvent.noteOn ∨ classify pkt = MidiEvent.controlChange →
        valueByte pkt ≤ 127)
    ∧ ∀ (a : AdcState) (adcw : Nat), a.recovering_adc = 0 → adcw ≤ 1023 →
        0 ≤ (ADC_vect a adcw).pressure ∧ (ADC_vect a adcw).pressure ≤ 255
        ∧ ∀ pkt ∈ (mainStep s (ADC_vect a adcw).pressure ready).out,
            classify pkt = MidiEvent.noteOn ∨ classify pkt = MidiEvent.controlChange →
            valueByte pkt ≤ 127 := by
  have key : ∀ (p : Int), ∀ pkt ∈ (mainStep s p ready).out, valueByte pkt ≤ 127 := by
    intro p pkt hmem
    cases ready
    · simp [mainStep] at hmem
    · by_cases ht : s.recovering = 0
      · by_cases hp : 10 < p <;> by_cases hk : s.keydown = 0
        · have hb := toUchar_clamp_le p hp
          simp [mainStep, ht, hp, hk] at hmem
          subst hmem
          simpa [valueByte] using hb
        · have hb := toUchar_clamp_le p hp
          simp [mainStep, ht, hp, hk] at hmem
          subst hmem
          simpa [valueByte] using hb
        · simp [mainStep, ht, hp, hk] at hmem
        · simp [mainStep, ht, hp, hk] at hmem
          subst hmem
          simp [valueByte]
      · simp [mainStep, ht] at hmem
  refine ⟨fun pkt hmem _ => key r pkt hmem, ?_⟩
  intro a adcw ha hw
  have hp : (ADC_vect a adcw).pressure = Int.ofNat ((adcw % 65536) / 4) := by
    simp [ADC_vect, ha]
  refine ⟨?_, ?_, fun pkt hmem _ => key _ pkt hmem⟩
  · rw [hp]; exact Int.ofNat_nonneg _
  · rw [hp]
    have : (adcw % 65536) / 4 ≤ 255 := by omega
    show ((adcw % 65536 / 4 : Nat) : Int) ≤ 255
    exact_mod_cast this

/-- Witness of C6: reading 1023 from the initial state (Note-On with velocity
127), and the raw conversion 1023 stored as 255 by the interrupt. -/
theorem C6_value_byte_range_witness :
    valueByte [0x09, 0x90, 60, 127, 0, 0, 0, 0] ≤ 127
    ∧ (ADC_vect { recovering_adc := 0, pressure := 0 } 1023).pressure ≤ 255 :=
  ⟨(C6_value_byte_range (mainInit 0) 1023 true).1
      [0x09, 0x90, 60, 127, 0, 0, 0, 0] (by decide) (by decide),
   ((C6_value_byte_range (mainInit 0) 1023 true).2
      { recovering_adc := 0, pressure := 0 } 1023 rfl (by decide)).2.1⟩

/-- C7 (no duplicated transitions): for every finite input sequence of
(reading, endpoint-ready) pairs run from the initial state (key off, timer 0),
the emitted packets are well formed read from key off: Note-On and Note-Off
strictly alternate beginning with a Note-On, every Control-Change lies after
a Note-On and before the next Note-Off, and no other kind of packet occurs. -/
theorem C7_alternation (portb : Nat) (inputs : List (Int × Bool)) :
    alternates false (mainRun (mainInit portb) inputs).out = true := by
  have h := alternates_mainRun inputs (mainInit portb)
  simpa [mainInit] using h

/-- C8 (endpoint not ready): for every reading and every state, an iteration
in which `usbInterruptIsReady()` is false emits no packet and leaves the whole
state (key state, debounce timer and `PORTB`) unchanged; and every iteration,
ready or not, emits at most one packet. -/
theorem C8_not_ready_skips (s : MainState) (r : Int) :
    (mainStep s r false).out = []
      ∧ (mainStep s r false).state.keydown = s.keydown
      ∧ (mainStep s r false).state.recovering = s.recovering
      ∧ (mainStep s r false).state = s
      ∧ ∀ ready : Bool, (mainStep s r ready).out.length ≤ 1 := by
  refine ⟨by simp [mainStep], by simp [mainStep], by simp [mainStep], by simp [mainStep], ?_⟩
  intro ready
  unfold mainStep
  simp only []
  split_ifs <;> simp

/-- C9, the claim as stated fails at `n = 10002 ≥ DEBOUNCE`: the key is still
held when the debounce window expires, so the 10002nd reading of 50 emits a
Control-Change; the output is Note-On, Control-Change, and no Note-Off. -/
theorem C9_scenario_counterexample :
    DEBOUNCE ≤ ((10002 : Nat) : Int)
    ∧ (mainRun (mainInit 0) (scenario 10002)).out
        = [[0x09, 0x90, 60, 50, 0, 0, 0, 0], [0x0B, 0xB0, 16, 50, 0, 0, 0, 0]]
    ∧ (mainRun (mainInit 0) (scenario 10002)).out
        ≠ [[0x09, 0x90, 60, 50, 0, 0, 0, 0], [0x08, 0x80, 60, 0, 0, 0, 0, 0]] := by
  obtain ⟨s2, hrun, hrec, hkey⟩ := run_press_hold_long 0 0 (by norm_num)
  have hrec' : s2.recovering = 10000 := by rw [hrec]; norm_num
  have hout : (mainRun (mainInit 0) (scenario 10002)).out
      = [[0x09, 0x90, 60, 50, 0, 0, 0, 0], [0x0B, 0xB0, 16, 50, 0, 0, 0, 0]] := by
    have hn : (10002 : Nat) = 10000 + 1 + (1 + 0) := by norm_num
    unfold scenario
    rw [hn, mainRun_append, hrun]
    simp [mainRun_cons, mainRun_nil, mainStep, hrec', wrapInt16]
  refine ⟨by decide, hout, ?_⟩
  rw [hout]
  decide

/-- C9 (amended): with the endpoint ready on every iteration and starting from
key off, timer 0, the readings `0, 0`, then `n` readings of 50, then `0, 0`
make the loop emit exactly Note-On(60, 50) then Note-Off(60), with no
Control-Change in between, when `DEBOUNCE ≤ n ≤ DEBOUNCE + 1`; for every
`n ≥ DEBOUNCE + 2` the first two packets are Note-On(60, 50) and the
Control-Change (16, 50). -/
theorem C9_scenario (n : Nat) (portb : Nat) (hn : DEBOUNCE ≤ (n : Int)) :
    ((n : Int) ≤ DEBOUNCE + 1 →
      (mainRun (mainInit portb) (scenario n)).out
        = [[0x09, 0x90, 60, 50, 0, 0, 0, 0], [0x08, 0x80, 60, 0, 0, 0, 0, 0]])
    ∧ (DEBOUNCE + 2 ≤ (n : Int) →
      (mainRun (mainInit portb) (scenario n)).out.take 2
        = [[0x09, 0x90, 60, 50, 0, 0, 0, 0], [0x0B, 0xB0, 16, 50, 0, 0, 0, 0]]) := by
  unfold DEBOUNCE at hn ⊢
  constructor
  · intro hle
    obtain ⟨k, rfl⟩ : ∃ k, n = k + 1 := ⟨n - 1, by omega⟩
    obtain ⟨s1, hrun, hrec, hkey⟩ := run_press_hold k portb (by push_cast at hle; omega)
    unfold scenario
    rw [mainRun_append, hrun]
    have hcase : s1.recovering = 1 ∨ s1.recovering = 0 := by
      push_cast at hn hle; omega
    rcases hcase with h1 | h0
    · simp [mainRun_cons, mainRun_nil, mainStep, h1, hkey, wrapInt16]
    · simp [mainRun_cons, mainRun_nil, mainStep, h0, hkey]
  · intro hge
    obtain ⟨j, rfl⟩ : ∃ j, n = 10000 + 1 + (1 + 0) + j := ⟨n - 10002, by omega⟩
    obtain ⟨s2, hrun, -, -⟩ := run_press_hold_long 0 portb (by norm_num)
    unfold scenario
    rw [List.replicate_add, ← List.append_assoc, List.append_assoc, mainRun_append, hrun]
    simp

/-- Witness of C9 (amended) at `n = 10000 = DEBOUNCE`. -/
theorem C9_scenario_witness :
    (mainRun (mainInit 0) (scenario 10000)).out
      = [[0x09, 0x90, 60, 50, 0, 0, 0, 0], [0x08, 0x80, 60, 0, 0, 0, 0, 0]] :=
  (C9_scenario 10000 0 (by decide)).1 (by decide)

/-- C10, the claim as stated fails: with key on and timer 5, an iteration in
which the endpoint is not ready leaves the timer at 5, not at 4. -/
theorem C10_not_ready_decrement_counterexample :
    (0 : Int) < ({ recovering := 5, keydown := 1, PORTB := 1 } : MainState).recovering
    ∧ (mainStep { recovering := 5, keydown := 1, PORTB := 1 } 50 false).state.recovering = 5
    ∧ (mainStep { recovering := 5, keydown := 1, PORTB := 1 } 50 false).state.recovering
        ≠ 5 - 1 := by
  decide

/-- C10 (amended): the debounce timer does not decrement on iterations where
the endpoint is not ready: for every state with timer `t > 0`, an iteration in
which `usbInterruptIsReady()` is false leaves the timer at `t`. -/
theorem C10_not_ready_keeps_timer (s : MainState) (r : Int) (_ht : 0 < s.recovering) :
    (mainStep s r false).state.recovering = s.recovering
      ∧ (mainStep s r false).state.recovering ≠ s.recovering - 1 := by
  have h : (mainStep s r false).state.recovering = s.recovering := by simp [mainStep]
  exact ⟨h, by rw [h]; omega⟩

/-- Witness of C10 (amended) at key on, timer 5. -/
theorem C10_not_ready_keeps_timer_witness :
    (mainStep { recovering := 5, keydown := 1, PORTB := 1 } 50 false).state.recovering = 5 :=
  (C10_not_ready_keeps_timer { recovering := 5, keydown := 1, PORTB := 1 } 50
    (by decide)).1

/-! ## Descriptor tables and control callbacks -/

/-- C11 (descriptor table lengths): given that the vendor-ID, device-ID and
device-version macros each expand to 2 bytes, the device descriptor table is
exactly 18 bytes long and its first byte (`bLength`) is 18; the configuration
descriptor table is exactly 101 bytes long and its bytes 2 and 3
(`wTotalLength`, little-endian) are 101 and 0. -/
theorem C11_descriptor_lengths (h : UsbHeader)
    (hv : h.USB_CFG_VENDOR_ID.length = 2) (hd : h.USB_CFG_DEVICE_ID.length = 2)
    (hr : h.USB_CFG_DEVICE_VERSION.length = 2) :
    (deviceDescrMIDI h).length = 18
      ∧ (deviceDescrMIDI h)[0]? = some 18
      ∧ (configDescrMIDI h).length = 101
      ∧ (configDescrMIDI h)[2]? = some 101
      ∧ (configDescrMIDI h)[3]? = some 0 := by
  refine ⟨?_, ?_, ?_, ?_, ?_⟩
  · simp [deviceDescrMIDI, hv, hd, hr]
  · simp [deviceDescrMIDI]
  · simp [configDescrMIDI]
  · simp [configDescrMIDI]
  · simp [configDescrMIDI]

/-- Witness of C11 at the sample header. -/
theorem C11_descriptor_lengths_witness :
    (deviceDescrMIDI sampleHeader).length = 18
      ∧ (deviceDescrMIDI sampleHeader)[0]? = some 18
      ∧ (configDescrMIDI sampleHeader).length = 101
      ∧ (configDescrMIDI sampleHeader)[2]? = some 101
      ∧ (configDescrMIDI sampleHeader)[3]? = some 0 :=
  C11_descriptor_lengths sampleHeader rfl rfl rfl

/-- C13 (descriptor callback): with two-byte ID macros and distinct values of
`USBDESCR_DEVICE` and `USBDESCR_CONFIG`, for every request and every previous
value of `usbMsgPtr`: if the high byte of `wValue` is `USBDESCR_DEVICE` the
call points `usbMsgPtr` at the device table and returns 18; if it is
`USBDESCR_CONFIG` it points `usbMsgPtr` at the configuration table and returns
101; for every other descriptor type it returns 0 and leaves `usbMsgPtr`
unchanged; and two requests with the same high byte of `wValue` give the same
result, so the result never depends on the descriptor index. -/
theorem C13_descriptor_callback (h : UsbHeader)
    (hv : h.USB_CFG_VENDOR_ID.length = 2) (hd : h.USB_CFG_DEVICE_ID.length = 2)
    (hr : h.USB_CFG_DEVICE_VERSION.length = 2)
    (hne : h.USBDESCR_DEVICE ≠ h.USBDESCR_CONFIG)
    (usbMsgPtr : MsgPtr) (rq : usbRequest_t) :
    (rq.wValue.2 = h.USBDESCR_DEVICE →
        usbFunctionDescriptor h usbMsgPtr rq = (18, MsgPtr.deviceTable))
    ∧ (rq.wValue.2 = h.USBDESCR_CONFIG →
        usbFunctionDescriptor h usbMsgPtr rq = (101, MsgPtr.configTable))
    ∧ (rq.wValue.2 ≠ h.USBDESCR_DEVICE → rq.wValue.2 ≠ h.USBDESCR_CONFIG →
        usbFunctionDescriptor h usbMsgPtr rq = (0, usbMsgPtr))
    ∧ (∀ rq2 : usbRequest_t, rq2.wValue.2 = rq.wValue.2 →
        usbFunctionDescriptor h usbMsgPtr rq2 = usbFunctionDescriptor h usbMsgPtr rq) := by
  have hdev : toByte (deviceDescrMIDI h).length = 18 := by
    simp [deviceDescrMIDI, hv, hd, hr, toByte]
  have hcfg : toByte (configDescrMIDI h).length = 101 := by
    simp [configDescrMIDI, toByte]
  refine ⟨?_, ?_, ?_, ?_⟩
  · intro h1
    simp [usbFunctionDescriptor, h1, hdev]
  · intro h2
    have h1 : rq.wValue.2 ≠ h.USBDESCR_DEVICE := by
      rw [h2]; exact fun e => hne e.symm
    simp only [usbFunctionDescriptor, if_neg h1, if_pos h2, hcfg]
  · intro h1 h2
    simp only [usbFunctionDescriptor, if_neg h1, if_neg h2]
  · intro rq2 he
    simp only [usbFunctionDescriptor, he]

/-- Witness of C13 at the sample header: a device request with index 7, a
configuration request with index 0, and a string request (type 3). -/
theorem C13_descriptor_callback_witness :
    usbFunctionDescriptor sampleHeader (MsgPtr.other 0)
        { bmRequestType := 0x80, bRequest := 6, wValue := (7, 1), wIndex := (0, 0),
          wLength := (18, 0) } = (18, MsgPtr.deviceTable)
    ∧ usbFunctionDescriptor sampleHeader (MsgPtr.other 0)
        { bmRequestType := 0x80, bRequest := 6, wValue := (0, 2), wIndex := (0, 0),
          wLength := (101, 0) } = (101, MsgPtr.configTable)
    ∧ usbFunctionDescriptor sampleHeader (MsgPtr.other 0)
        { bmRequestType := 0x80, bRequest := 6, wValue := (0, 3), wIndex := (0, 0),
          wLength := (4, 0) } = (0, MsgPtr.other 0) :=
  ⟨(C13_descriptor_callback sampleHeader rfl rfl rfl (by decide) (MsgPtr.other 0)
      { bmRequestType := 0x80, bRequest := 6, wValue := (7, 1), wIndex := (0, 0),
        wLength := (18, 0) }).1 rfl,
   (C13_descriptor_callback sampleHeader rfl rfl rfl (by decide) (MsgPtr.other 0)
      { bmRequestType := 0x80, bRequest := 6, wValue := (0, 2), wIndex := (0, 0),
        wLength := (101, 0) }).2.1 rfl,
   (C13_descriptor_callback sampleHeader rfl rfl rfl (by decide) (MsgPtr.other 0)
      { bmRequestType := 0x80, bRequest := 6, wValue := (0, 3), wIndex := (0, 0),
        wLength := (4, 0) }).2.2.1 (by decide) (by decide)⟩

/-- C16, the claim as stated fails: for a vendor-type request
(`bmRequestType = 0x40`) and for a class-type request (`bmRequestType = 0x21`)
`usbFunctionSetup` returns 0xff, not 0. -/
theorem C16_setup_counterexample :
    usbFunctionSetup sampleHeader [0x40, 0, 0, 0, 0, 0, 0, 0] = 0xff
    ∧ usbFunctionSetup sampleHeader [0x40, 0, 0, 0, 0, 0, 0, 0] ≠ 0
    ∧ usbFunctionSetup sampleHeader [0x21, 0, 0, 0, 0, 0, 0, 0] = 0xff
    ∧ usbFunctionSetup sampleHeader [0x21, 0, 0, 0, 0, 0, 0, 0] ≠ 0 := by
  decide

/-- C16 (amended): `usbFunctionSetup` returns 0xff for every SETUP packet,
whatever its request type and direction and whatever the request masks of the
driver header; it never returns 0. -/
theorem C16_setup_returns_ff (h : UsbHeader) (data : List Nat) :
    usbFunctionSetup h data = 0xff ∧ usbFunctionSetup h data ≠ 0 := by
  have hff : usbFunctionSetup h data = 0xff := by
    unfold usbFunctionSetup
    simp only []
    split_ifs <;> rfl
  exact ⟨hff, by rw [hff]; decide⟩

/-! ## ADC interrupt -/

/-- C14 (ADC interrupt step): when the settle counter is 0 (Reporting), a
firing with raw conversion value `v` (a 16-bit register value) stores
`pressure = v / 4` (integer division) and returns the counter to the Warming
value -1; in every other counter state a firing leaves `pressure` unchanged. -/
theorem C14_adc_step (a : AdcState) (v : Nat) (hv : v < 65536) :
    (a.recovering_adc = 0 →
        (ADC_vect a v).pressure = ((v / 4 : Nat) : Int)
        ∧ (ADC_vect a v).recovering_adc = -1)
    ∧ (a.recovering_adc ≠ 0 → (ADC_vect a v).pressure = a.pressure) := by
  constructor
  · intro h0
    have hmod : v % 65536 = v := Nat.mod_eq_of_lt hv
    simp [ADC_vect, h0, hmod]
  · intro hne
    by_cases h1 : a.recovering_adc = -1
    · simp [ADC_vect, h1]
    · simp [ADC_vect, h1, hne]

/-- Witness of C14: raw value 1023 in the Reporting state, and a firing in
the Warming state. -/
theorem C14_adc_step_witness :
    ((ADC_vect { recovering_adc := 0, pressure := 7 } 1023).pressure = 255
      ∧ (ADC_vect { recovering_adc := 0, pressure := 7 } 1023).recovering_adc = -1)
    ∧ (ADC_vect { recovering_adc := -1, pressure := 7 } 1023).pressure = 7 :=
  ⟨(C14_adc_step { recovering_adc := 0, pressure := 7 } 1023 (by decide)).1 rfl,
   (C14_adc_step { recovering_adc := -1, pressure := 7 } 1023 (by decide)).2 (by decide)⟩

/-! ## Boot sequence and loop invariant -/

/-- C15 (boot disconnect sequence): in the action trace of `main` between
`usbDeviceDisconnect()` and `usbDeviceConnect()` the delays sum to 900 ms,
which is at least 300 ms; there are 60 calls of `wdt_reset()`; and the delay
accumulated before the first `wdt_reset()`, between any two consecutive ones,
and after the last one never exceeds 15 ms. -/
theorem C15_boot_disconnect :
    totalDelay (betweenDisconnectConnect mainBoot) = 900
      ∧ 300 ≤ totalDelay (betweenDisconnectConnect mainBoot)
      ∧ (betweenDisconnectConnect mainBoot).count BootAction.wdt_reset = 60
      ∧ ∀ gap ∈ resetGaps 0 (betweenDisconnectConnect mainBoot), gap ≤ 15 := by
  rw [between_mainBoot, totalDelay_disconnectLoop, count_disconnectLoop]
  exact ⟨by norm_num, by norm_num, rfl, resetGaps_disconnectLoop 60 0 (by norm_num)⟩

/-- C17 (reachable-state invariant): in every state reached from the initial
state (key off, timer 0) by any sequence of readings and endpoint-ready
flags, the debounce timer satisfies `0 ≤ timer ≤ DEBOUNCE` (so it stays
within a 16-bit `int`), a positive timer implies that the key is on, and a key
that is off implies that the timer is 0. -/
theorem C17_reachable_invariant (portb : Nat) (inputs : List (Int × Bool)) :
    0 ≤ (mainRun (mainInit portb) inputs).state.recovering
      ∧ (mainRun (mainInit portb) inputs).state.recovering ≤ DEBOUNCE
      ∧ (mainRun (mainInit portb) inputs).state.recovering ≤ 32767
      ∧ (0 < (mainRun (mainInit portb) inputs).state.recovering →
          (mainRun (mainInit portb) inputs).state.keydown ≠ 0)
      ∧ ((mainRun (mainInit portb) inputs).state.keydown = 0 →
          (mainRun (mainInit portb) inputs).state.recovering = 0) := by
  have hinit : mainInvariant (mainInit portb) := by
    simp [mainInvariant, mainInit, DEBOUNCE]
  obtain ⟨h0, h1, h2⟩ := mainRun_invariant inputs (mainInit portb) hinit
  refine ⟨h0, h1, ?_, h2, ?_⟩
  · unfold DEBOUNCE at h1; omega
  · intro hk
    by_contra hne
    exact h2 (by omega) hk

/-! ## Structure of the configuration descriptor -/

/-- C12, the claim as stated fails: the configuration table contains 4
class-specific jack descriptors, not 2 (IN embedded ID 1, IN external ID 2,
OUT embedded ID 3, OUT external ID 4). -/
theorem C12_jack_count_counterexample :
    jackDescriptors sampleHeader
        = [[6, 36, 2, 1, 1, 0], [6, 36, 2, 2, 2, 0],
           [9, 36, 3, 1, 3, 1, 2, 1, 0], [9, 36, 3, 2, 4, 1, 1, 1, 0]]
      ∧ (jackDescriptors sampleHeader).length = 4
      ∧ (jackDescriptors sampleHeader).length ≠ 2 := by
  have hj := jackDescriptors_config sampleHeader sampleHeader_standardTypes
  rw [hj]
  exact ⟨rfl, rfl, by decide⟩

/-- C12 (amended): with the standard descriptor type values, the
configuration table declares 2 interfaces (`bNumInterfaces = 2`; interface 0
with class 1, subclass 1: Audio Control; then interface 1 with class 1,
subclass 3: MIDI Streaming), contains exactly 4 class-specific jack
descriptors (one embedded and one external IN jack, one embedded and one
external OUT jack), and exactly 2 standard endpoint descriptors (OUT address
0x01, then IN address 0x81), each with `wMaxPacketSize` 8 and `bInterval` 10. -/
theorem C12_descriptor_topology (h : UsbHeader) (hs : h.standardTypes) :
    (configDescrMIDI h)[4]? = some 2
      ∧ interfaceDescriptors h
          = [[9, 4, 0, 0, 0, 1, 1, 0, 0], [9, 4, 1, 0, 2, 1, 3, 0, 0]]
      ∧ (jackDescriptors h).length = 4
      ∧ (jackDescriptors h).map (fun d => (bDescriptorSubtype d, bJackType d, bJackID d))
          = [(2, 1, 1), (2, 2, 2), (3, 1, 3), (3, 2, 4)]
      ∧ ((jackDescriptors h).filter
            (fun d => bDescriptorSubtype d = 2 ∧ bJackType d = 1)).length = 1
      ∧ ((jackDescriptors h).filter
            (fun d => bDescriptorSubtype d = 3 ∧ bJackType d = 1)).length = 1
      ∧ (endpointDescriptors h).length = 2
      ∧ (endpointDescriptors h).map (fun d => d.getD 2 0) = [0x01, 0x81]
      ∧ ∀ d ∈ endpointDescriptors h, wordAt d 4 = 8 ∧ d.getD 6 0 = 10 := by
  rw [interfaceDescriptors_config h hs, jackDescriptors_config h hs,
    endpointDescriptors_config h hs]
  refine ⟨by simp [configDescrMIDI], rfl, rfl, by decide, by decide, by decide, rfl,
    by decide, by decide⟩

/-- Witness of C12 (amended) at the sample header. -/
theorem C12_descriptor_topology_witness :
    (jackDescriptors sampleHeader).length = 4
      ∧ (endpointDescriptors sampleHeader).length = 2 :=
  ⟨(C12_descriptor_topology sampleHeader sampleHeader_standardTypes).2.2.1,
   (C12_descriptor_topology sampleHeader sampleHeader_standardTypes).2.2.2.2.2.2.1⟩

/-- C18 (well-formed configuration table): with the standard descriptor type
values, the walk from offset 0 that advances by each `bLength` visits 13
sub-descriptors, each with `bLength ≥ 2` and fully inside the table, and ends
exactly at offset 101, the length of the table; the class-specific
MIDIStreaming header has `wTotalLength` 65, the number of bytes from that
header to the end of the table; interface 1 has `bNumEndpoints` 2, the number
of endpoint descriptors (type 5) that follow it; the jack IDs are pairwise
distinct; every `baSourceID` of an OUT jack and every `baAssocJackID` of a
class-specific endpoint is the ID of a jack declared in the table. -/
theorem C18_config_well_formed (h : UsbHeader) (hs : h.standardTypes) :
    configWellFormed h := by
  have hsub := subDescriptors_config h hs
  have hjack := jackDescriptors_config h hs
  have hend := walkEnd_config h
  have hlen : (configDescrMIDI h).length = 101 := by simp [configDescrMIDI]
  obtain ⟨-, -, h3, -⟩ := hs
  unfold configWellFormed
  simp only []
  rw [hsub, hjack, hend, hlen]
  refine ⟨rfl, ?_, rfl, rfl, ?_, ?_, by decide, by decide, ?_⟩
  · intro d hd
    simp only [List.map_cons, List.map_nil, List.mem_cons, List.mem_singleton,
      List.not_mem_nil, or_false] at hd
    rcases hd with rfl | rfl | rfl | rfl | rfl | rfl | rfl | rfl | rfl | rfl | rfl | rfl | rfl
      <;> simp [bLength]
  · refine ⟨[(0, [9, 2, 101, 0, 2, 1, 0,
                toByte h.USBATTR_BUSPOWER, toByte (h.USB_CFG_MAX_BUS_POWER / 2)]),
             (9, [9, 4, 0, 0, 0, 1, 1, 0, 0]), (18, [9, 36, 1, 0, 1, 9, 0, 1, 1])],
            (27, [9, 4, 1, 0, 2, 1, 3, 0, 0]), (36, [7, 36, 1, 0, 1, 65, 0]), _, rfl, ?_⟩
    simp [h3, bDescriptorType, bDescriptorSubtype, wordAt]
  · refine ⟨[[9, 2, 101, 0, 2, 1, 0,
                toByte h.USBATTR_BUSPOWER, toByte (h.USB_CFG_MAX_BUS_POWER / 2)],
             [9, 4, 0, 0, 0, 1, 1, 0, 0], [9, 36, 1, 0, 1, 9, 0, 1, 1]],
            [9, 4, 1, 0, 2, 1, 3, 0, 0], _, rfl, ?_⟩
    simp [h3, bDescriptorType, List.filter]
  · intro d hd
    simp only [List.map_cons, List.map_nil, List.mem_cons, List.mem_singleton,
      List.not_mem_nil, or_false] at hd
    rcases hd with rfl | rfl | rfl | rfl | rfl | rfl | rfl | rfl | rfl | rfl | rfl | rfl | rfl
      <;> simp [bDescriptorType, baAssocJackIDs, bJackID]

/-- Witness of C18 at the sample header. -/
theorem C18_config_well_formed_witness : configWellFormed sampleHeader :=
  C18_config_well_formed sampleHeader sampleHeader_standardTypes

/-! ## ADC reporting period -/

/-- C19 (ADC reporting period): for every sequence of raw conversion values
in `[0,1023]`, from the reset state (indeed from any state with settle counter
-1): the first 301 firings leave `pressure` unchanged; the 302nd firing writes
that firing's raw value divided by 4 and leaves the counter at -1 again; after
`n` firings from reset the counter is -1 exactly when `n` is a multiple of
302, so `pressure` is written once every 302 firings; the counter always
stays in `[-1,300]` and the stored pressure in `[0,255]`. -/
theorem C19_adc_period (raws : List Nat) (hraw : ∀ v ∈ raws, v ≤ 1023) :
    (∀ a : AdcState, a.recovering_adc = -1 → raws.length ≤ 301 →
        (adcRun a raws).pressure = a.pressure)
    ∧ (∀ (a : AdcState) (v : Nat), a.recovering_adc = -1 → raws.length = 301 →
        v ≤ 1023 →
        adcRun a (raws ++ [v]) = { recovering_adc := -1, pressure := ((v / 4 : Nat) : Int) })
    ∧ ((adcRun adcInit raws).recovering_adc = -1 ↔ raws.length % 302 = 0)
    ∧ (raws.length % 302 ≠ 0 →
        (adcRun adcInit raws).recovering_adc = 301 - ((raws.length % 302 : Nat) : Int))
    ∧ -1 ≤ (adcRun adcInit raws).recovering_adc
    ∧ (adcRun adcInit raws).recovering_adc ≤ 300
    ∧ 0 ≤ (adcRun adcInit raws).pressure
    ∧ (adcRun adcInit raws).pressure ≤ 255 := by
  have hlt : raws.length % 302 < 302 := Nat.mod_lt _ (by norm_num)
  have hc := adcRun_counter raws adcInit rfl
  obtain ⟨p0, p1⟩ := adcRun_pressure_range raws hraw
  refine ⟨fun a ha hlen => adcRun_pressure_kept raws a ha hlen, ?_, ?_, ?_, ?_, ?_, p0, p1⟩
  · intro a v ha hlen hv
    have hc0 : (adcRun a raws).recovering_adc = 0 := by
      rw [adcRun_counter raws a ha, hlen]; norm_num
    have hmod : v % 65536 = v := Nat.mod_eq_of_lt (by omega)
    rw [adcRun_snoc]
    simp [ADC_vect, hc0, hmod]
  · rw [hc]
    constructor
    · intro h
      by_contra hne
      rw [if_neg hne] at h
      omega
    · intro h
      rw [if_pos h]
  · intro hne
    rw [hc, if_neg hne]
  · rw [hc]; split_ifs <;> omega
  · rw [hc]; split_ifs <;> omega

/-- Witness of C19: 301 firings with raw value 1000 from reset keep
`pressure = 0`, and a 302nd firing with raw value 1023 stores 255. -/
theorem C19_adc_period_witness :
    (adcRun adcInit (List.replicate 301 1000)).pressure = 0
    ∧ adcRun adcInit (List.replicate 301 1000 ++ [1023])
        = { recovering_adc := -1, pressure := 255 } :=
  ⟨(C19_adc_period (List.replicate 301 1000)
      (fun v hv => by rw [List.eq_of_mem_replicate hv]; norm_num)).1 adcInit rfl
      (by rw [List.length_replicate]),
   (C19_adc_period (List.replicate 301 1000)
      (fun v hv => by rw [List.eq_of_mem_replicate hv]; norm_num)).2.1 adcInit 1023 rfl
      (by rw [List.length_replicate]) (by norm_num)⟩

/-! ## Host clock LED pattern -/

/-- C20 (host clock LED pattern), evaluated on the code. Starting from counter
0, for every `k ≤ 32767` the `k`-th (0-based) consecutive clock packet
(`data[0] = 0x0f`, `data[1] = 0xf8`) finds the counter at `k` and sets the red
LED bit iff `k mod 24 = 0`, clears it iff `k mod 24 = 11`, and otherwise
leaves `PORTB` unchanged. At `k = 32771`, where `k mod 24 = 11`, the 16-bit
counter has wrapped to -32765, the red LED bit is on, and the packet leaves
`PORTB` unchanged, so the LED is not turned off. A packet with
`data[0] = 0x0f` and `data[1] ≠ 0xf8` resets the counter to 0 and keeps
`PORTB`; a packet with `data[0] ≠ 0x0f` changes nothing; no packet changes a
`PORTB` bit other than the red LED bit. -/
theorem C20_clock_led :
    (∀ (k p0 len : Nat), k ≤ 32767 →
        (writeOutRun { i := 0, PORTB := p0 } (List.replicate k clockPacket)).i = (k : Int)
        ∧ (usbFunctionWriteOut
              (writeOutRun { i := 0, PORTB := p0 } (List.replicate k clockPacket))
              clockPacket len).PORTB
            = if k % 24 = 0 then
                (writeOutRun { i := 0, PORTB := p0 } (List.replicate k clockPacket)).PORTB
                  ||| 1
              else if k % 24 = 11 then
                (writeOutRun { i := 0, PORTB := p0 } (List.replicate k clockPacket)).PORTB
                  &&& 254
              else
                (writeOutRun { i := 0, PORTB := p0 } (List.replicate k clockPacket)).PORTB)
    ∧ (32760 + 11 = 32771 ∧ 32771 % 24 = 11)
    ∧ (∀ (p0 len : Nat),
        (writeOutRun { i := 0, PORTB := p0 } (List.replicate (32760 + 11) clockPacket)).i
            = -32765
        ∧ (writeOutRun { i := 0, PORTB := p0 }
              (List.replicate (32760 + 11) clockPacket)).PORTB.testBit R_LED_PIN = true
        ∧ (usbFunctionWriteOut
              (writeOutRun { i := 0, PORTB := p0 } (List.replicate (32760 + 11) clockPacket))
              clockPacket len).PORTB
            = (writeOutRun { i := 0, PORTB := p0 }
                (List.replicate (32760 + 11) clockPacket)).PORTB
        ∧ (usbFunctionWriteOut
              (writeOutRun { i := 0, PORTB := p0 } (List.replicate (32760 + 11) clockPacket))
              clockPacket len).PORTB.testBit R_LED_PIN = true)
    ∧ (∀ (s : WriteOutState) (data : List Nat) (len : Nat),
        data.getD 0 0 = 0x0f → data.getD 1 0 ≠ 0xf8 →
        usbFunctionWriteOut s data len = { i := 0, PORTB := s.PORTB })
    ∧ (∀ (s : WriteOutState) (data : List Nat) (len : Nat),
        data.getD 0 0 ≠ 0x0f → usbFunctionWriteOut s data len = s)
    ∧ (∀ (s : WriteOutState) (data : List Nat) (len b : Nat), 1 ≤ b → b < 8 →
        (usbFunctionWriteOut s data len).PORTB.testBit b = s.PORTB.testBit b) := by
  refine ⟨?_, ⟨by norm_num, by norm_num⟩, ?_, ?_, ?_, ?_⟩
  · intro k p0 len hk
    have hc := writeOutRun_clock_counter k { i := 0, PORTB := p0 } (le_refl _)
      (by show (0 : Int) + (k : Int) ≤ 32767; omega)
    have hi : (writeOutRun { i := 0, PORTB := p0 } (List.replicate k clockPacket)).i
        = (k : Int) := by
      rw [hc]; simp
    refine ⟨hi, ?_⟩
    rw [writeOut_clock_portb _ len (by rw [hi]; omega), hi]
    by_cases c0 : k % 24 = 0
    · have c0i : (k : Int) % 24 = 0 := by omega
      rw [if_pos c0, if_pos c0i]
    · by_cases c11 : k % 24 = 11
      · have c0i : ¬ (k : Int) % 24 = 0 := by omega
        have c11i : (k : Int) % 24 = 11 := by omega
        rw [if_neg c0, if_pos c11, if_neg c0i, if_pos c11i]
      · have c0i : ¬ (k : Int) % 24 = 0 := by omega
        have c11i : ¬ (k : Int) % 24 = 11 := by omega
        rw [if_neg c0, if_neg c11, if_neg c0i, if_neg c11i]
  · intro p0 len
    obtain ⟨P, hP⟩ := writeOutRun_overflow p0
    rw [hP]
    have hstep := writeOut_clock_idle (-32765) (-32764) (P ||| 1) len
      (by decide) (by decide) (by decide)
    rw [hstep]
    have hbit : (P ||| 1).testBit R_LED_PIN = true := by simp [R_LED_PIN]
    exact ⟨rfl, hbit, rfl, hbit⟩
  · intro s data len h0 h1
    simp only [usbFunctionWriteOut, if_pos h0, if_neg h1]
  · intro s data len h0
    simp only [usbFunctionWriteOut, if_neg h0]
  · intro s data len b h1 h8
    exact writeOut_other_bits s data len b h1 h8

end TinyMidi
